import Mathlib

/-! # Conversation orchestrator and generation pipeline of `backend/internal/api/handlers.go`

A shallow embedding of the step-driven chat handler, its prompt templates, the
project-structure walker and the file generation walk.

Modelling conventions.

* A Go `map[string]interface{}` is an association list `List (String × Value)`.
  The order of the list is the order in which `range` visits the map; Go leaves
  that order unspecified, so statements quantify over every list.  Real maps have
  no repeated key; concrete inputs below never repeat one.
* The dynamic type `interface{}` is the inductive `Value`; `[]string` (built by
  `generateFileList`) and `[]interface{}` (built by `json.Unmarshal`) are distinct
  constructors because the type switches tell them apart.
* Go `int` step numbers are `Int`.  File counters (`filesProcessed`, `totalFiles`,
  percentages) are sums of lengths and increments from zero and are `Nat`; an
  integer division by zero is the explicit result `Status.panic`.
* The outside world (model API, file system, JSON decoder, clock) is the record
  `Env`; every call made is logged in `World`, and each oracle sees the log so
  far, so any sequence of outcomes of one run is some `Env`.
* `fmt.Sprintf` with `%s` and `%d` verbs is string concatenation.
-/

namespace Handlers

/-- A decoded JSON value as held in a Go `interface{}`, extended with `[]string`.
The handlers never inspect the `float64` of a number; it is kept as an integer. -/
inductive Value where
  | null : Value
  | bool (b : Bool) : Value
  | number (n : Int) : Value
  | string (s : String) : Value
  | strings (fs : List String) : Value
  | array (xs : List Value) : Value
  | object (kvs : List (String × Value)) : Value
deriving Repr

/-- Go `strings.Contains(s, ".")`: the separator is the single ASCII byte `.`. -/
def containsDot (s : String) : Bool := s.data.contains '.'

/-- Go `strings.HasSuffix(s, "/")`. -/
def hasSuffixSlash (s : String) : Bool := s.data.getLast? == some '/'


/-- The template of `enhancePrompt`, case 1, before and after the `%s` verb. -/
def step1Before : String := "Based on the following description of a project, provide a simplified JSON representation of the project structure.\n\t\tDescription:\n\t\t"

def step1After : String := "\n\t\tPlease respond with a JSON object containing the project structure. The backend must be implemented in the specified backend technology (e.g., Go, Node.js, Python), and the frontend must be implemented in the specified frontend technology (e.g., React, Vue, Angular). Include both backend and frontend if applicable, with nested objects representing directories and arrays for files.\n\n\t\tEnsure to include the following files:\n\t\t1. Any necessary configuration files for package management (e.g., package.json for the frontend, go.mod for Go in the backend, requirements.txt for Python, etc.), representing them as regular files.\n\t\t2. A Dockerfile for both the backend and frontend. The Dockerfile must be suitable for running the backend technology (e.g., Go, Node.js, Python) and the frontend technology (e.g., React, Vue, Angular).\n\t\t3. A docker-compose.yml file to set up the project environment, including separate services for the backend and frontend.\n\n\t\tBe sure that the Dockerfile for the backend and frontend properly sets up the runtime environment, installs dependencies, and runs the application according to best practices for the specified technology.\n\n\t\tKeep the structure as simple as possible while accurately representing the project. Provide only the JSON object, with no additional text or explanations."

/-- The template of `enhancePrompt`, case 2, before and after the `%s` verb. -/
def step2Before : String := "Based on the JSON file structure provided in the previous step, generate the content for all files in the structure. Follow these rules:\n\n\t\t1. Use the project name and structure from the JSON as context.\n\t\t2. Generate appropriate content for each file, including code, configuration, or documentation as needed.\n\t\t3. For code files, provide complete, functional code that follows best practices for the respective language or framework.\n\t\t4. For configuration files, include realistic and relevant settings.\n\t\t5. For documentation files like README.md, provide comprehensive information about the project structure, setup, and usage.\n\t\t6. Use comments in the code to explain complex logic or important details.\n\t\t7. Ensure consistency across all files in terms of naming conventions, coding style, and overall architecture.\n\t\t8. If there are dependencies between files, ensure they are properly referenced and imported.\n\n\t\tPresent each file\x27s content in the following format:\n\n\t\t--- [File Path] ---\n\t\t[File Content]\n\n\t\t--- [Next File Path] ---\n\t\t[Next File Content]\n\n\t\t...and so on for all files in the structure.\n\n\t\tThe JSON structure from the previous step was:\n\n\t\t"

def step2After : String := "\n\n\t\tPlease generate the content for all files based on this structure."

/-- The template of `enhancePrompt`, default case, cut at its three verbs. -/
def defaultPart0 : String := "Interaction #"

def defaultPart1 : String := ":\n\t\tThis question was asked at "

def defaultPart2 : String := ".\n\t\t- Additional instructions: \n\t\t1. Continue to respond based on previous interactions.\n\t\t2. Provide a clear and objective response, and include additional examples if useful.\n\t\t\n\t\tUser question: "

/-- The per-file template of `generateAndSaveFileContent`, around its `%s` verb. -/
def fileBefore : String := "Generate the content for the file: "

def fileAfter : String := "\n\n\tUse the following rules:\n\t1. Provide complete, functional code that follows best practices for the respective language or framework.\n\t2. If it\x27s a Dockerfile for the backend, make sure it installs dependencies (e.g., go.mod), compiles the code, and runs the backend service.\n\t3. If it\x27s a Dockerfile for the frontend, ensure it installs the necessary frontend dependencies (e.g., Node modules), builds the frontend, and serves the application.\n\t4. For configuration files like go.mod and package.json, ensure they use the project name \"chat-app-maker\" instead of generic placeholders like \"github.com/your_username/your_project\".\n\t5. Ensure consistency in naming conventions, coding style, and architecture across all files.\n\n\tPlease generate only the content of the file, without any additional explanations or file path indicators."

/-- `enhancePrompt`; `currentTime` is the value of
`time.Now().Format(time.RFC3339)` read on entry. -/
def enhancePrompt (currentTime : String) (originalPrompt : String) (currentStep : Int) : String :=
  if currentStep = 1 then
    step1Before ++ originalPrompt ++ step1After
  else if currentStep = 2 then
    step2Before ++ originalPrompt ++ step2After
  else
    defaultPart0 ++ toString currentStep ++ defaultPart1 ++ currentTime ++ defaultPart2
      ++ originalPrompt

/-- The prompt built at the top of `generateAndSaveFileContent`. -/
def filePrompt (filePath : String) : String := fileBefore ++ filePath ++ fileAfter

/-! ## Structure walker -/

/-- The inner loop of `generateFileList` over a `[]interface{}`: keeps the items
whose dynamic type is `string`. -/
def stringItems : List Value → List String
  | [] => []
  | .string file :: rest => file :: stringItems rest
  | _ :: rest => stringItems rest

mutual
/-- `generateFileList`: the canonical structure of a decoded JSON object. -/
def generateFileList : List (String × Value) → List (String × Value)
  | [] => []
  | (key, value) :: rest => (key, canonicalValue value) :: generateFileList rest
/-- The type switch in the body of the loop of `generateFileList`. -/
def canonicalValue : Value → Value
  | .object v => .object (generateFileList v)
  | .array v => .strings (stringItems v)
  | v => v
end

mutual
/-- `countFiles`: the total used as the denominator of the progress percentage. -/
def countFiles : List (String × Value) → Nat
  | [] => 0
  | (key, value) :: rest => countEntry key value + countFiles rest
/-- The type switch in the body of the loop of `countFiles`. -/
def countEntry (key : String) : Value → Nat
  | .strings v => v.length
  | .object v =>
    if v.length = 0 ∧ (containsDot key ∨ key = "Dockerfile") then 1 else countFiles v
  | .array v =>
    if v.length = 0 ∧ (containsDot key ∨ key = "Dockerfile" ∨ key = "go.mod"
        ∨ key = "package.json") then 1 else 0
  | _ =>
    if key = "Dockerfile" ∨ key = "go.mod" ∨ key = "package.json" ∨ key = "App.js"
        ∨ key = "index.js" ∨ key = "docker-compose.yml" ∨ key = ".gitignore" then 1 else 0
end

/-! ## Data model (`models/conversation.go`) and the outside world -/

/-- `models.Step`. -/
structure Step where
  Number : Int
  Input : String
  Response : String
deriving DecidableEq, Repr

/-- `models.Conversation`. A nil and an empty `Steps` slice are both `[]`. -/
structure Conversation where
  ID : String
  Steps : List Step
  ProjectCreated : Bool
deriving DecidableEq, Repr

/-- `models.ChatRequest`. -/
structure ChatRequest where
  ConversationID : String
  Message : String
  IsConfirmation : Bool
deriving DecidableEq, Repr

/-- The `Content interface{}` of a `WebSocketMessage`, one constructor per Go type
the handlers put there: a string, the canonical structure, `models.FileContent`,
`Progress` and `models.ChatResponse`. -/
inductive Content where
  | text (s : String) : Content
  | structure (m : List (String × Value)) : Content
  | fileContent (path : String) (content : String) : Content
  | progress (percentage : Nat) (message : String) : Content
  | chatResponse (conversationID : String) (message : String) (stepNumber : Int)
      (requiresConfirmation : Bool) : Content
deriving Repr

/-- `WebSocketMessage`. -/
structure WebSocketMessage where
  type : String
  content : Content
deriving Repr

/-- The log of every effect requested so far, oldest first: prompts passed to
`claude.Client.GetResponse`, directories passed to `os.MkdirAll`, `(path, content)`
pairs passed to `ioutil.WriteFile`, and messages passed to `conn.WriteJSON`. -/
structure World where
  prompts : List String
  mkdirs : List String
  writes : List (String × String)
  sent : List WebSocketMessage
deriving Repr

/-- The collaborators outside the repository. Each fallible call sees the log
before the call and yields an error text or a result. -/
structure Env where
  getResponse : World → String → Except String String
  join : String → String → String
  dir : String → String
  mkdirAll : World → String → Option String
  writeFile : World → String → String → Option String
  unmarshal : String → Except String (List (String × Value))
  now : World → String

/-- The result of a Go function returning `error`; a run-time panic is explicit. -/
inductive Status where
  | ok : Status
  | error (err : String) : Status
  | panic (msg : String) : Status
deriving DecidableEq, Repr

/-- The result of a Go function returning `(string, error)`. -/
inductive Reply where
  | ok (response : String) : Reply
  | error (response : String) (err : String) : Reply
  | panic (msg : String) : Reply
deriving DecidableEq, Repr

/-- `sendWebSocketMessage`; a failed `WriteJSON` is only logged by the source. -/
def sendWebSocketMessage (w : World) (messageType : String) (content : Content) : World :=
  { w with sent := w.sent ++ [⟨messageType, content⟩] }

/-- `sendProgressUpdate`. -/
def sendProgressUpdate (w : World) (percentage : Nat) (message : String) : World :=
  sendWebSocketMessage w "progress_update" (.progress percentage message)

/-- `sendWebSocketError`. -/
def sendWebSocketError (w : World) (errorMessage : String) : World :=
  sendWebSocketMessage w "error" (.text errorMessage)

/-- `saveFileToDisk`, with `filepath.Join` and `filepath.Dir` taken from `env`. -/
def saveFileToDisk (env : Env) (appName filePath content : String) (w : World) :
    World × Option String :=
  let fullPath := env.join appName filePath
  let dir := env.dir fullPath
  let w1 := { w with mkdirs := w.mkdirs ++ [dir] }
  match env.mkdirAll w dir with
  | some err => (w1, some ("error creating directory: " ++ err))
  | none =>
    if hasSuffixSlash filePath then (w1, none)
    else
      let w2 := { w1 with writes := w1.writes ++ [(fullPath, content)] }
      match env.writeFile w1 fullPath content with
      | some err => (w2, some ("error writing file: " ++ err))
      | none => (w2, none)

/-! ## Generation pipeline -/

/-- The state threaded through `processFiles`: the world and the captured
counter `filesProcessed`. -/
structure Walk where
  world : World
  filesProcessed : Nat
deriving Repr

/-- `generateAndSaveFileContent`. The quotient by `totalFiles` is unguarded. -/
def generateAndSaveFileContent (env : Env) (appName filePath : String) (totalFiles : Nat)
    (s : Walk) : Walk × Status :=
  let prompt := filePrompt filePath
  let w1 := { s.world with prompts := s.world.prompts ++ [prompt] }
  match env.getResponse s.world prompt with
  | .error err =>
    (⟨w1, s.filesProcessed⟩,
      .error ("error getting response from Claude for file " ++ filePath ++ ": " ++ err))
  | .ok response =>
    match saveFileToDisk env appName filePath response w1 with
    | (w2, some err) => (⟨w2, s.filesProcessed⟩, .error ("error saving file to disk: " ++ err))
    | (w2, none) =>
      let w3 := sendWebSocketMessage w2 "file_content" (.fileContent filePath response)
      let filesProcessed := s.filesProcessed + 1
      if totalFiles = 0 then
        (⟨w3, filesProcessed⟩, .panic "runtime error: integer divide by zero")
      else
        let percentage := (filesProcessed * 100) / totalFiles
        (⟨sendProgressUpdate w3 percentage ("Generating: " ++ filePath), filesProcessed⟩, .ok)

/-- The loop over a `[]string` inside `processFiles`. -/
def processFileNames (env : Env) (appName : String) (totalFiles : Nat) (newPath : String) :
    List String → Walk → Walk × Status
  | [], s => (s, .ok)
  | file :: rest, s =>
    let filePath := newPath ++ "/" ++ file
    let filePath := if !containsDot file ∧ file ≠ "Dockerfile" then filePath ++ "/" else filePath
    if hasSuffixSlash filePath then
      match saveFileToDisk env appName filePath "" s.world with
      | (w, some err) =>
        (⟨w, s.filesProcessed⟩, .error ("error saving directory to disk: " ++ err))
      | (w, none) =>
        let filesProcessed := s.filesProcessed + 1
        let w := if totalFiles > 0 then
            sendProgressUpdate w ((filesProcessed * 100) / totalFiles)
              ("Creating directory: " ++ filePath)
          else w
        processFileNames env appName totalFiles newPath rest ⟨w, filesProcessed⟩
    else
      match generateAndSaveFileContent env appName filePath totalFiles s with
      | (s1, .ok) => processFileNames env appName totalFiles newPath rest s1
      | r => r

mutual
/-- The closure `processFiles` of `processStep2`. -/
def processFiles (env : Env) (appName : String) (totalFiles : Nat) :
    List (String × Value) → String → Walk → Walk × Status
  | [], _, s => (s, .ok)
  | (key, value) :: rest, path, s =>
    match processEntry env appName totalFiles key value path s with
    | (s1, .ok) => processFiles env appName totalFiles rest path s1
    | r => r
/-- The type switch in the body of the loop of `processFiles`. -/
def processEntry (env : Env) (appName : String) (totalFiles : Nat) (key : String) :
    Value → String → Walk → Walk × Status
  | .strings v, path, s => processFileNames env appName totalFiles (path ++ "/" ++ key) v s
  | .object v, path, s =>
    if v.length = 0 ∧ (containsDot key ∨ key = "Dockerfile") then
      generateAndSaveFileContent env appName (path ++ "/" ++ key) totalFiles s
    else
      processFiles env appName totalFiles v (path ++ "/" ++ key) s
  | .array v, path, s =>
    if v.length = 0 ∧ (containsDot key ∨ key = "Dockerfile" ∨ key = "go.mod"
        ∨ key = "main.go" ∨ key = "docker-compose.yml") then
      generateAndSaveFileContent env appName (path ++ "/" ++ key) totalFiles s
    else (s, .ok)
  | _, path, s =>
    if key = "Dockerfile" ∨ key = "package.json" ∨ key = "App.js" ∨ key = "index.js"
        ∨ key = "go.mod" ∨ key = "main.go" ∨ key = "docker-compose.yml"
        ∨ key = ".gitignore" then
      generateAndSaveFileContent env appName (path ++ "/" ++ key) totalFiles s
    else (s, .ok)
end

/-! ## Conversation store (`storage/memory.go`) -/

/-- The map `conversations` of `MemoryStorage`. The source stores pointers; every
mutation of a conversation in the handlers is followed at once by
`UpdateConversation` of the same pointer, so holding values gives the same
contents after each exchange. -/
abbrev Store := String → Option Conversation

/-- `NewMemoryStorage`. -/
def NewMemoryStorage : Store := fun _ => none

/-- `GetConversation`: `none` is the pair `(nil, false)`. -/
def GetConversation (m : Store) (id : String) : Option Conversation := m id

/-- `UpdateConversation`. -/
def UpdateConversation (m : Store) (conv : Conversation) : Store :=
  fun id => if id = conv.ID then some conv else m id

/-- `GetOrCreateConversation`: the new map, the conversation and `exists`. -/
def GetOrCreateConversation (m : Store) (id : String) : Store × Conversation × Bool :=
  match m id with
  | some conv => (m, conv, true)
  | none =>
    let conv : Conversation := { ID := id, Steps := [], ProjectCreated := false }
    (fun k => if k = id then some conv else m k, conv, false)

/-! ## Orchestrator -/

/-- The package-level map `confirmationSteps`; a missing key reads as `false`. -/
def confirmationSteps (n : Int) : Bool :=
  n = 1 || n = 2 || n = 7 || n = 8 || n = 13

/-- What a step of the orchestrator leaves behind: the conversation behind the
pointer `conv`, the store, the world, and the returned `(string, error)`. -/
structure Handling where
  conv : Conversation
  store : Store
  world : World
  reply : Reply

/-- `processStep2`. -/
def processStep2 (env : Env) (conv : Conversation) (store : Store) (w : World) : Handling :=
  match conv.Steps with
  | [] => ⟨conv, store, w, .panic "runtime error: index out of range [0] with length 0"⟩
  | step0 :: _ =>
    let jsonStructure := step0.Response
    match env.unmarshal jsonStructure with
    | .error err => ⟨conv, store, w, .error "" ("error parsing JSON structure: " ++ err)⟩
    | .ok projectStructure =>
      let appName := "chat-app-maker"
      let fileStructure := generateFileList projectStructure
      let w1 := sendWebSocketMessage w "project_structure" (.structure fileStructure)
      let w2 := sendWebSocketMessage w1 "status_update" (.text "Generating project files...")
      let totalFiles := countFiles fileStructure
      let w3 := sendProgressUpdate w2 0 "Starting file generation..."
      match processFiles env appName totalFiles fileStructure "" ⟨w3, 0⟩ with
      | (s, .error err) => ⟨conv, store, s.world, .error "" err⟩
      | (s, .panic msg) => ⟨conv, store, s.world, .panic msg⟩
      | (s, .ok) =>
        let w4 := sendProgressUpdate s.world 100 "File generation complete!"
        let newStep : Step :=
          { Number := 2, Input := "Generate file contents",
            Response := "File contents generated and sent to frontend" }
        let conv1 := { conv with Steps := conv.Steps ++ [newStep] }
        let store1 := UpdateConversation store conv1
        let w5 := sendWebSocketMessage w4 "status_update"
          (.text "Is this the structure you were expecting? Please confirm with YES or NO.")
        ⟨conv1, store1, w5, .ok "Great! I\x27ve generated the content for all files based on the JSON structure. The files have been sent to the frontend for display."⟩

/-- `handleConfirmation`. -/
def handleConfirmation (env : Env) (answer : String) (currentStep : Int) (conv : Conversation)
    (store : Store) (w : World) : Handling :=
  if currentStep = 1 then
    if answer = "YES" then processStep2 env conv store w
    else ⟨conv, store, w,
      .ok "I understand. Let\x27s revise the JSON structure. What would you like to change?"⟩
  else if currentStep = 2 then
    if answer = "YES" then
      ⟨conv, store, w,
        .ok "Great! The file contents have been generated. Let\x27s move on to the next step."⟩
    else ⟨conv, store, w,
      .ok "I see. What part of the generated file contents would you like to modify?"⟩
  else if currentStep = 7 ∨ currentStep = 8 ∨ currentStep = 13 then
    if answer = "YES" then
      ⟨conv, store, w, .ok ("Excellent! We\x27ll continue with the next phase. (Step "
        ++ toString currentStep ++ " completed)")⟩
    else ⟨conv, store, w, .ok ("No problem. Let\x27s revisit step " ++ toString currentStep
        ++ ". What needs adjustment?")⟩
  else
    ⟨conv, store, w, .error "" ("unexpected confirmation for step " ++ toString currentStep)⟩

/-- `processNormalMessage`. -/
def processNormalMessage (env : Env) (message : String) (currentStep : Int)
    (conv : Conversation) (store : Store) (w : World) : Handling :=
  let enhancedPrompt := enhancePrompt (env.now w) message (currentStep + 1)
  let w1 := { w with prompts := w.prompts ++ [enhancedPrompt] }
  match env.getResponse w enhancedPrompt with
  | .error err => ⟨conv, store, w1, .error "" ("error getting response from Claude: " ++ err)⟩
  | .ok response =>
    let w2 := if currentStep = 0 then
        sendWebSocketMessage w1 "project_structure" (.text response)
      else w1
    ⟨conv, store, w2, .ok response⟩

/-- Lines 241-251 of `NewChatHandler`: the conversation the exchange works on
and the store after `GetOrCreateConversation` and, for a new id, the
`UpdateConversation` with a conversation of no Steps. -/
def openConversation (store : Store) (id : String) : Conversation × Store :=
  let created := GetOrCreateConversation store id
  if created.2.2 then (created.2.1, created.1)
  else
    let conv : Conversation := { ID := id, Steps := [], ProjectCreated := false }
    (conv, UpdateConversation created.1 conv)

/-- Lines 256-261 of `NewChatHandler`: the branch on `chatReq.IsConfirmation`. -/
def dispatch (env : Env) (chatReq : ChatRequest) (currentStep : Int) (conv : Conversation)
    (store : Store) (w : World) : Handling :=
  if chatReq.IsConfirmation then
    handleConfirmation env chatReq.Message currentStep conv store w
  else
    processNormalMessage env chatReq.Message currentStep conv store w

/-- Lines 263-288 of `NewChatHandler`: the error event and `continue`, or the
append of the new Step, the update of the store and the `chat_response`. -/
def conclude (chatReq : ChatRequest) (currentStep : Int) (h : Handling) :
    Store × World × Status :=
  match h.reply with
  | .panic msg => (h.store, h.world, .panic msg)
  | .error _ err => (h.store, sendWebSocketError h.world "Error processing message", .error err)
  | .ok claudeResponse =>
    let currentStep := currentStep + 1
    let newStep : Step :=
      { Number := currentStep, Input := chatReq.Message, Response := claudeResponse }
    let conv1 := { h.conv with Steps := h.conv.Steps ++ [newStep] }
    let store1 := UpdateConversation h.store conv1
    let w1 := sendWebSocketMessage h.world "chat_response"
      (.chatResponse chatReq.ConversationID claudeResponse currentStep
        (confirmationSteps (currentStep + 1)))
    (store1, w1, .ok)

/-- The body of the `for` loop of `NewChatHandler`, after a request was read:
one exchange. The status is `ok` when a Step was appended, `error` when the
iteration ended at `continue`, `panic` when the goroutine panicked. -/
def chatExchange (env : Env) (store : Store) (w : World) (chatReq : ChatRequest) :
    Store × World × Status :=
  let opened := openConversation store chatReq.ConversationID
  let conv := opened.1
  let currentStep : Int := conv.Steps.length
  conclude chatReq currentStep (dispatch env chatReq currentStep conv opened.2 w)

/-- The `for` loop of `NewChatHandler` over the requests read from one
connection: the store and the world it leaves, and the status of each exchange
in order. A panic ends the loop. -/
def NewChatHandler (env : Env) :
    Store → World → List ChatRequest → Store × World × List Status
  | store, w, [] => (store, w, [])
  | store, w, chatReq :: rest =>
    match chatExchange env store w chatReq with
    | (store1, w1, .panic msg) => (store1, w1, [.panic msg])
    | (store1, w1, status) =>
      let after := NewChatHandler env store1 w1 rest
      (after.1, after.2.1, status :: after.2.2)

/-- The `Steps` held by the store for `id`; none for an id without an entry. -/
def stepsOf (m : Store) (id : String) : List Step :=
  match m id with
  | some conv => conv.Steps
  | none => []

/-- The JSON scalars: the values that reach the `default` case of the type switches. -/
def isScalar : Value → Bool
  | .null => true
  | .bool _ => true
  | .number _ => true
  | .string _ => true
  | _ => false

/-! ## Fixtures for concrete runs -/

/-- An environment in which the model always answers `json`, the decoder maps
exactly that text to `decoded`, the file system accepts every request, and the
clock stands still. -/
def scriptedEnv (json : String) (decoded : List (String × Value)) : Env :=
  { getResponse := fun _ _ => .ok json
    join := fun a b => a ++ b
    dir := fun p => p
    mkdirAll := fun _ _ => none
    writeFile := fun _ _ _ => none
    unmarshal := fun s => if s = json then .ok decoded else .error "invalid character"
    now := fun _ => "2024-01-01T00:00:00Z" }

/-- An environment whose model API refuses every call. -/
def offlineEnv : Env :=
  { scriptedEnv "{}" [] with getResponse := fun _ _ => .error "connection refused" }

/-- The world before anything happened. -/
def emptyWorld : World := ⟨[], [], [], []⟩

/-- The `(percentage, message)` pairs of the `progress_update` messages sent. -/
def progressEvents : List WebSocketMessage → List (Nat × String)
  | [] => []
  | ⟨_, .progress percentage message⟩ :: rest => (percentage, message) :: progressEvents rest
  | _ :: rest => progressEvents rest



/-- The percentages of the `progress_update` messages sent, oldest first. -/
def percentages (w : World) : List Nat := (progressEvents w.sent).map Prod.fst

/-- Every model call and every request to the file system succeeds. -/
def allSucceed (env : Env) : Prop :=
  (∀ w prompt, ∃ response, env.getResponse w prompt = .ok response) ∧
  (∀ w dir, env.mkdirAll w dir = none) ∧
  (∀ w path content, env.writeFile w path content = none)

mutual
/-- No entry at any depth has the key `main.go` with a scalar value. -/
def scalarMainGoFree : List (String × Value) → Bool
  | [] => true
  | (key, value) :: rest => entryMainGoFree key value && scalarMainGoFree rest
/-- The entry is not `main.go` with a scalar value, nor holds one below it. -/
def entryMainGoFree (key : String) : Value → Bool
  | .object v => scalarMainGoFree v
  | .strings _ => true
  | .array _ => true
  | _ => key != "main.go"
end

/-! ## Query endpoint -/

/-- `models.Message`. -/
structure Message where
  Role : String
  Content : String
deriving DecidableEq, Repr

/-- The `for` loop of `getMessagesFromSteps`: two messages appended per Step. -/
def appendMessages (messages : List Message) : List Step → List Message
  | [] => messages
  | step :: rest =>
    appendMessages (messages ++ [⟨"user", step.Input⟩, ⟨"assistant", step.Response⟩]) rest

/-- `getMessagesFromSteps`; the slice `steps[len(steps)-limit:]` drops the first
`len(steps) - limit` Steps. A nil result slice is `[]`. -/
def getMessagesFromSteps (steps : List Step) (limit : Int) : List Message :=
  let steps :=
    if limit > 0 ∧ limit < (steps.length : Int) then
      steps.drop ((steps.length : Int) - limit).toNat
    else steps
  appendMessages [] steps

/-- The number `k` of Steps a query reports: `limit` when `0 < limit < len(steps)`,
otherwise `len(steps)`. -/
def reportedSteps (steps : List Step) (limit : Int) : Nat :=
  if 0 < limit ∧ limit < (steps.length : Int) then limit.toNat else steps.length

/-! ## Statement vocabulary for the structure walker -/

mutual
/-- The structure is built only from arrays of strings and non-empty nested
mappings. -/
def arraysAndMappings : List (String × Value) → Bool
  | [] => true
  | (_, value) :: rest => arrayOrMapping value && arraysAndMappings rest
/-- The value is an array of strings or a non-empty mapping of such values. -/
def arrayOrMapping : Value → Bool
  | .array xs => xs.all (fun x => match x with | .string _ => true | _ => false)
  | .object v => !v.isEmpty && arraysAndMappings v
  | _ => false
end

mutual
/-- The number of strings in all arrays of the structure, at every depth. -/
def stringTotal : List (String × Value) → Nat
  | [] => 0
  | (_, value) :: rest => stringTotalValue value + stringTotal rest
/-- The number of strings in the arrays of one value. -/
def stringTotalValue : Value → Nat
  | .array xs => (xs.filter (fun x => match x with | .string _ => true | _ => false)).length
  | .object v => stringTotal v
  | _ => 0
end

/-! ## Sequences of store operations -/

/-- One call of a `MemoryStorage` method. Each method holds `m.mu` for its whole
body, so the calls of concurrent sessions take effect one after another. -/
inductive StoreOp where
  | get (id : String) : StoreOp
  | getOrCreate (id : String) : StoreOp
  | update (conv : Conversation) : StoreOp
deriving DecidableEq, Repr

/-- The map after one call. -/
def applyOp (m : Store) : StoreOp → Store
  | .get _ => m
  | .getOrCreate id => (GetOrCreateConversation m id).1
  | .update conv => UpdateConversation m conv

/-- The map after a sequence of calls, oldest first. -/
def runOps (m : Store) : List StoreOp → Store
  | [] => m
  | op :: rest => runOps (applyOp m op) rest

/-- The conversation most recently passed to `UpdateConversation` with the id,
if any, in a sequence of calls given oldest first. -/
def lastUpdate (id : String) : List StoreOp → Option Conversation
  | [] => none
  | .update conv :: rest =>
    match lastUpdate id rest with
    | some later => some later
    | none => if conv.ID = id then some conv else none
  | _ :: rest => lastUpdate id rest

/-! ## Paths: `path/filepath` of the Go standard library on a Unix system

`saveFileToDisk` calls `filepath.Join` and `filepath.Dir`, both defined through
`filepath.Clean`. The definitions below follow the documented rules of `Clean`:
collapse repeated separators, drop `.` elements, cancel an inner `..` with the
element before it, drop `..` at the start of a rooted path; the result ends in a
slash only when it is the root, and the empty result is `.`. -/

/-- Go `strings.Split(s, "/")` on the characters of a path. -/
def splitSlash : List Char → List (List Char)
  | [] => [[]]
  | c :: cs =>
    if c = '/' then [] :: splitSlash cs
    else
      match splitSlash cs with
      | [] => [[c]]
      | first :: others => (c :: first) :: others

/-- The elements kept by `Clean`, most recent first, after reading one more. -/
def cleanStep (rooted : Bool) (kept : List (List Char)) (element : List Char) :
    List (List Char) :=
  if element = [] ∨ element = ['.'] then kept
  else if element = ['.', '.'] then
    match kept with
    | [] => if rooted then [] else [element]
    | top :: below => if top = ['.', '.'] then element :: kept else below
  else element :: kept

/-- The elements joined by single slashes. -/
def joinSlash : List (List Char) → List Char
  | [] => []
  | [element] => element
  | element :: rest => element ++ '/' :: joinSlash rest

/-- Go `filepath.Clean`. -/
def filepathClean (path : String) : String :=
  let rooted := path.data.head? == some '/'
  let kept := ((splitSlash path.data).foldl (cleanStep rooted) []).reverse
  let body := joinSlash kept
  if rooted then String.mk ('/' :: body)
  else if body = [] then "."
  else String.mk body

/-- Go `filepath.Join` of two elements: empty elements before the first non-empty
one are ignored, the rest is joined with slashes and cleaned. -/
def filepathJoin (a b : String) : String :=
  if a ≠ "" then filepathClean (a ++ "/" ++ b)
  else if b ≠ "" then filepathClean b
  else ""

/-- The characters of a path up to and including its last slash. -/
def upToLastSlash (cs : List Char) : List Char :=
  (cs.reverse.dropWhile (fun c => c != '/')).reverse

/-- Go `filepath.Dir`: `Clean` of the path up to and including its last slash. -/
def filepathDir (path : String) : String :=
  filepathClean (String.mk (upToLastSlash path.data))

/-- An environment with the Unix `filepath` functions in which the model always
answers `json`, the decoder maps that text to `decoded`, and every call succeeds. -/
def unixEnv (json : String) (decoded : List (String × Value)) : Env :=
  { scriptedEnv json decoded with join := filepathJoin, dir := filepathDir }

/-- Whether directory `d` exists once the requests `mkdirs` to `os.MkdirAll` have
succeeded on an empty tree: `MkdirAll` creates the named directory and its parents,
so `d` must be a requested path or a proper ancestor of one. -/
def createdBy (mkdirs : List String) (d : String) : Bool :=
  mkdirs.any (fun p => p == d || (d.data ++ ['/']).isPrefixOf p.data)

/-! ## Reachable states of the message loop -/

/-- Every exchange the server handles, over all connections, in the order the
store sees them; the store outlives a connection whose goroutine panicked. -/
def exchanges (env : Env) : Store → World → List ChatRequest → Store × World
  | store, w, [] => (store, w)
  | store, w, chatReq :: rest =>
    exchanges env (chatExchange env store w chatReq).1 (chatExchange env store w chatReq).2.1 rest

/-- The first Step, if there is one, has number 1 and its Response is a reply of
the model to the structure-proposal prompt built from its Input. -/
def firstStepFromNormalMessage (env : Env) : List Step → Prop
  | [] => True
  | step0 :: _ =>
    step0.Number = 1 ∧
      ∃ w, env.getResponse w (enhancePrompt (env.now w) step0.Input 1) = .ok step0.Response

/-- The `(stepNumber, requiresConfirmation)` pairs of the `chat_response`
messages sent, oldest first. -/
def chatResponses : List WebSocketMessage → List (Int × Bool)
  | [] => []
  | ⟨_, .chatResponse _ _ stepNumber requiresConfirmation⟩ :: rest =>
    (stepNumber, requiresConfirmation) :: chatResponses rest
  | _ :: rest => chatResponses rest

/-! ## String helpers -/

theorem string_append_left_cancel {a x y : String} (h : a ++ x = a ++ y) : x = y := by
  have h1 := congrArg String.data h
  simp only [String.data_append, List.append_cancel_left_eq] at h1
  exact String.ext h1

theorem string_append_right_cancel {a x y : String} (h : x ++ a = y ++ a) : x = y := by
  have h1 := congrArg String.data h
  simp only [String.data_append, List.append_cancel_right_eq] at h1
  exact String.ext h1

theorem empty_path_key (k : String) : "" ++ "/" ++ k = "/" ++ k := by
  apply String.ext
  simp [String.data_append]

/-! ## Store lemmas -/

theorem stepsOf_UpdateConversation (m : Store) (conv : Conversation) (k : String) :
    stepsOf (UpdateConversation m conv) k = if k = conv.ID then conv.Steps else stepsOf m k := by
  unfold stepsOf UpdateConversation
  split_ifs <;> rfl

theorem GetOrCreateConversation_found {m : Store} {id : String} {conv : Conversation}
    (h : m id = some conv) : GetOrCreateConversation m id = (m, conv, true) := by
  simp [GetOrCreateConversation, h]

theorem GetOrCreateConversation_missing {m : Store} {id : String} (h : m id = none) :
    GetOrCreateConversation m id =
      (fun k => if k = id then some ⟨id, [], false⟩ else m k, ⟨id, [], false⟩, false) := by
  simp [GetOrCreateConversation, h]

theorem stepsOf_openConversation (store : Store) (id k : String) :
    stepsOf (openConversation store id).2 k = stepsOf store k := by
  unfold openConversation
  cases h : store id with
  | some conv => simp [GetOrCreateConversation_found h]
  | none =>
    by_cases hk : k = id
    · subst hk; simp [GetOrCreateConversation_missing h, stepsOf, UpdateConversation, h]
    · simp [GetOrCreateConversation_missing h, stepsOf, UpdateConversation, hk]

theorem steps_openConversation (store : Store) (id : String) :
    (openConversation store id).1.Steps = stepsOf store id := by
  unfold openConversation
  cases h : store id with
  | some conv => simp [GetOrCreateConversation_found h, stepsOf, h]
  | none => simp [GetOrCreateConversation_missing h, stepsOf, h]

/-! ## Orchestrator: confirmation dispatch -/

theorem handleConfirmation_undefined (env : Env) (answer : String) (currentStep : Int)
    (conv : Conversation) (store : Store) (w : World)
    (h1 : currentStep ≠ 1) (h2 : currentStep ≠ 2) (h7 : currentStep ≠ 7)
    (h8 : currentStep ≠ 8) (h13 : currentStep ≠ 13) :
    handleConfirmation env answer currentStep conv store w =
      ⟨conv, store, w, .error "" ("unexpected confirmation for step " ++ toString currentStep)⟩ := by
  simp [handleConfirmation, h1, h2, h7, h8, h13]

theorem handleConfirmation_no (env : Env) (answer : String) (currentStep : Int)
    (conv : Conversation) (store : Store) (w : World) (hans : answer ≠ "YES") :
    handleConfirmation env answer currentStep conv store w =
      ⟨conv, store, w,
        if currentStep = 1 then
          .ok "I understand. Let\x27s revise the JSON structure. What would you like to change?"
        else if currentStep = 2 then
          .ok "I see. What part of the generated file contents would you like to modify?"
        else if currentStep = 7 ∨ currentStep = 8 ∨ currentStep = 13 then
          .ok ("No problem. Let\x27s revisit step " ++ toString currentStep
            ++ ". What needs adjustment?")
        else .error "" ("unexpected confirmation for step " ++ toString currentStep)⟩ := by
  unfold handleConfirmation
  simp only [hans, if_false]
  split_ifs <;> rfl

/-! ## Orchestrator: an exchange that ends in an error -/

theorem processStep2_store_of_not_ok (env : Env) (conv : Conversation) (store : Store)
    (w : World) (h : ∀ r, (processStep2 env conv store w).reply ≠ .ok r) :
    (processStep2 env conv store w).store = store := by
  unfold processStep2 at h ⊢
  cases hs : conv.Steps with
  | nil => rfl
  | cons step0 tail =>
    simp only [hs] at h ⊢
    cases hu : env.unmarshal step0.Response with
    | error e => rfl
    | ok ps =>
      simp only [hu] at h ⊢
      split at h <;> first | rfl | simp at h

theorem handleConfirmation_store_of_not_ok (env : Env) (answer : String) (currentStep : Int)
    (conv : Conversation) (store : Store) (w : World)
    (h : ∀ r, (handleConfirmation env answer currentStep conv store w).reply ≠ .ok r) :
    (handleConfirmation env answer currentStep conv store w).store = store := by
  unfold handleConfirmation at h ⊢
  split_ifs at h ⊢ <;> first | rfl | exact processStep2_store_of_not_ok env conv store w h

theorem processNormalMessage_store (env : Env) (message : String) (currentStep : Int)
    (conv : Conversation) (store : Store) (w : World) :
    (processNormalMessage env message currentStep conv store w).store = store := by
  unfold processNormalMessage
  dsimp only
  split <;> rfl

theorem dispatch_store_of_not_ok (env : Env) (chatReq : ChatRequest) (currentStep : Int)
    (conv : Conversation) (store : Store) (w : World)
    (h : ∀ r, (dispatch env chatReq currentStep conv store w).reply ≠ .ok r) :
    (dispatch env chatReq currentStep conv store w).store = store := by
  unfold dispatch at h ⊢
  split_ifs at h ⊢
  · exact handleConfirmation_store_of_not_ok env _ _ conv store w h
  · exact processNormalMessage_store env _ _ conv store w

theorem conclude_error {chatReq : ChatRequest} {currentStep : Int} {h : Handling} {err : String}
    (he : (conclude chatReq currentStep h).2.2 = .error err) :
    (conclude chatReq currentStep h).1 = h.store ∧ ∀ r, h.reply ≠ .ok r := by
  unfold conclude at he ⊢
  split at he <;> simp_all

theorem chatExchange_steps_of_error (env : Env) (store : Store) (w : World)
    (chatReq : ChatRequest) (err : String)
    (h : (chatExchange env store w chatReq).2.2 = .error err) (k : String) :
    stepsOf (chatExchange env store w chatReq).1 k = stepsOf store k := by
  unfold chatExchange at h ⊢
  dsimp only at h ⊢
  obtain ⟨h1, h2⟩ := conclude_error h
  rw [h1, dispatch_store_of_not_ok _ _ _ _ _ _ h2, stepsOf_openConversation]

/-! ## Walker: scalar entries and the prompts of the walk -/

theorem canonicalValue_scalar {v : Value} (h : isScalar v = true) : canonicalValue v = v := by
  cases v <;> simp_all [isScalar, canonicalValue]

theorem countEntry_scalar (k : String) {v : Value} (h : isScalar v = true) :
    countEntry k v =
      if k = "Dockerfile" ∨ k = "go.mod" ∨ k = "package.json" ∨ k = "App.js"
        ∨ k = "index.js" ∨ k = "docker-compose.yml" ∨ k = ".gitignore" then 1 else 0 := by
  cases v <;> first | rfl | simp [isScalar] at h

theorem processEntry_scalar (env : Env) (appName : String) (totalFiles : Nat) (k path : String)
    {v : Value} (h : isScalar v = true) (s : Walk) :
    processEntry env appName totalFiles k v path s =
      if k = "Dockerfile" ∨ k = "package.json" ∨ k = "App.js" ∨ k = "index.js"
        ∨ k = "go.mod" ∨ k = "main.go" ∨ k = "docker-compose.yml"
        ∨ k = ".gitignore" then
        generateAndSaveFileContent env appName (path ++ "/" ++ k) totalFiles s
      else (s, .ok) := by
  cases v <;> first | rfl | simp [isScalar] at h

theorem entryMainGoFree_scalar (key : String) {value : Value} (hv : isScalar value = true) :
    entryMainGoFree key value = (key != "main.go") := by
  cases value <;> first | rfl | simp [isScalar] at hv

theorem processFiles_single (env : Env) (appName : String) (totalFiles : Nat) (k path : String)
    (v : Value) (s : Walk) :
    processFiles env appName totalFiles [(k, v)] path s =
      processEntry env appName totalFiles k v path s := by
  simp only [processFiles]
  rcases processEntry env appName totalFiles k v path s with ⟨s1, _ | _ | _⟩ <;> rfl

theorem saveFileToDisk_prompts (env : Env) (appName filePath content : String) (w : World) :
    (saveFileToDisk env appName filePath content w).1.prompts = w.prompts := by
  unfold saveFileToDisk
  dsimp only
  cases env.mkdirAll w (env.dir (env.join appName filePath)) with
  | some err => rfl
  | none =>
    dsimp only
    split_ifs
    · rfl
    · split <;> rfl

theorem generateAndSaveFileContent_prompts (env : Env) (appName filePath : String)
    (totalFiles : Nat) (s : Walk) :
    (generateAndSaveFileContent env appName filePath totalFiles s).1.world.prompts =
      s.world.prompts ++ [filePrompt filePath] := by
  unfold generateAndSaveFileContent
  dsimp only
  cases env.getResponse s.world (filePrompt filePath) with
  | error err => rfl
  | ok response =>
    dsimp only
    have hp := saveFileToDisk_prompts env appName filePath response
      { s.world with prompts := s.world.prompts ++ [filePrompt filePath] }
    rcases hsave : saveFileToDisk env appName filePath response
      { s.world with prompts := s.world.prompts ++ [filePrompt filePath] } with ⟨w2, _ | err⟩
    · rw [hsave] at hp
      dsimp only at hp ⊢
      split_ifs <;> simpa [sendWebSocketMessage, sendProgressUpdate] using hp
    · rw [hsave] at hp
      simpa using hp

theorem containsDot_of_named {key : String}
    (h : key = "go.mod" ∨ key = "main.go" ∨ key = "docker-compose.yml" ∨ key = "package.json") :
    containsDot key = true := by
  rcases h with h | h | h | h <;> subst h <;> decide

/-! ## The walk when every call succeeds -/

theorem progressEvents_append (xs ys : List WebSocketMessage) :
    progressEvents (xs ++ ys) = progressEvents xs ++ progressEvents ys := by
  induction xs with
  | nil => rfl
  | cons m rest ih =>
    obtain ⟨t, c⟩ := m
    cases c <;> simp [progressEvents, ih]

theorem percentages_sendProgressUpdate (w : World) (p : Nat) (msg : String) :
    percentages (sendProgressUpdate w p msg) = percentages w ++ [p] := by
  simp [percentages, sendProgressUpdate, sendWebSocketMessage, progressEvents_append,
    progressEvents]

theorem saveFileToDisk_succeeds {env : Env} (h : allSucceed env)
    (appName filePath content : String) (w : World) :
    (saveFileToDisk env appName filePath content w).2 = none ∧
    (saveFileToDisk env appName filePath content w).1.sent = w.sent := by
  unfold saveFileToDisk
  dsimp only
  rw [h.2.1]
  dsimp only
  split_ifs
  · exact ⟨rfl, rfl⟩
  · rw [h.2.2]
    exact ⟨rfl, rfl⟩

theorem generateAndSaveFileContent_succeeds {env : Env} (h : allSucceed env)
    (appName filePath : String) {totalFiles : Nat} (ht : totalFiles ≠ 0) (s : Walk) :
    ∃ s1, generateAndSaveFileContent env appName filePath totalFiles s = (s1, .ok) ∧
      s1.filesProcessed = s.filesProcessed + 1 ∧
      percentages s1.world = percentages s.world ++ [(s.filesProcessed + 1) * 100 / totalFiles] := by
  obtain ⟨r, hr⟩ := h.1 s.world (filePrompt filePath)
  unfold generateAndSaveFileContent
  dsimp only
  rw [hr]
  dsimp only
  obtain ⟨hs1, hs2⟩ := saveFileToDisk_succeeds h appName filePath r
    { s.world with prompts := s.world.prompts ++ [filePrompt filePath] }
  rcases hsave : saveFileToDisk env appName filePath r
    { s.world with prompts := s.world.prompts ++ [filePrompt filePath] } with ⟨w2, _ | err⟩
  · rw [hsave] at hs2
    dsimp only at hs2 ⊢
    rw [if_neg ht]
    refine ⟨_, rfl, rfl, ?_⟩
    rw [percentages_sendProgressUpdate]
    simp [percentages, sendWebSocketMessage, progressEvents_append, progressEvents, hs2]
  · rw [hsave] at hs1
    simp at hs1

theorem processFileNames_succeeds {env : Env} (h : allSucceed env) (appName newPath : String)
    {totalFiles : Nat} :
    ∀ (v : List String) (s : Walk), (v ≠ [] → totalFiles ≠ 0) →
      ∃ s1, processFileNames env appName totalFiles newPath v s = (s1, .ok) ∧
        s1.filesProcessed = s.filesProcessed + v.length ∧
        percentages s1.world = percentages s.world ++
          (List.range' (s.filesProcessed + 1) v.length).map (fun n => n * 100 / totalFiles)
  | [], s, _ => ⟨s, rfl, rfl, by simp⟩
  | file :: rest, s, ht => by
    have ht0 : totalFiles ≠ 0 := ht (by simp)
    unfold processFileNames
    dsimp only
    generalize (if (!containsDot file) = true ∧ file ≠ "Dockerfile" then
      newPath ++ "/" ++ file ++ "/" else newPath ++ "/" ++ file) = filePath
    by_cases hdir : hasSuffixSlash filePath = true
    · rw [if_pos hdir]
      obtain ⟨hs1, hs2⟩ := saveFileToDisk_succeeds h appName filePath "" s.world
      rcases hsave : saveFileToDisk env appName filePath "" s.world with ⟨w2, _ | err⟩
      · rw [hsave] at hs2
        dsimp only at hs2 ⊢
        rw [if_pos (Nat.pos_of_ne_zero ht0)]
        obtain ⟨s1, h1, h2, h3⟩ := processFileNames_succeeds h appName newPath rest
          ⟨sendProgressUpdate w2 ((s.filesProcessed + 1) * 100 / totalFiles)
            ("Creating directory: " ++ filePath), s.filesProcessed + 1⟩ (fun _ => ht0)
        refine ⟨s1, h1, ?_, ?_⟩
        · rw [h2]; simp; omega
        · rw [h3, percentages_sendProgressUpdate]
          have : percentages w2 = percentages s.world := by simp [percentages, hs2]
          rw [this]
          simp [List.range'_succ]
      · rw [hsave] at hs1
        simp at hs1
    · rw [if_neg hdir]
      obtain ⟨s0, g1, g2, g3⟩ := generateAndSaveFileContent_succeeds h appName filePath ht0 s
      rw [g1]
      dsimp only
      obtain ⟨s1, h1, h2, h3⟩ := processFileNames_succeeds h appName newPath rest s0
        (fun _ => ht0)
      refine ⟨s1, h1, ?_, ?_⟩
      · rw [h2, g2]; simp; omega
      · rw [h3, g3, g2]
        simp [List.range'_succ]

theorem scalarEntry_succeeds {env : Env} (h : allSucceed env) (appName : String)
    {totalFiles : Nat} (key : String) (value : Value) (path : String) (s : Walk)
    (hv : isScalar value = true) (hf : entryMainGoFree key value = true)
    (ht : countEntry key value ≠ 0 → totalFiles ≠ 0) :
    ∃ s1, processEntry env appName totalFiles key value path s = (s1, .ok) ∧
      s1.filesProcessed = s.filesProcessed + countEntry key value ∧
      percentages s1.world = percentages s.world ++
        (List.range' (s.filesProcessed + 1) (countEntry key value)).map
          (fun n => n * 100 / totalFiles) := by
  rw [entryMainGoFree_scalar key hv] at hf
  have hne : key ≠ "main.go" := by simpa using hf
  rw [countEntry_scalar key hv] at ht ⊢
  rw [processEntry_scalar env appName totalFiles key path hv]
  by_cases hc : key = "Dockerfile" ∨ key = "go.mod" ∨ key = "package.json" ∨ key = "App.js"
      ∨ key = "index.js" ∨ key = "docker-compose.yml" ∨ key = ".gitignore"
  · rw [if_pos hc] at ht ⊢
    rw [if_pos (by tauto)]
    simpa using generateAndSaveFileContent_succeeds h appName (path ++ "/" ++ key)
      (ht (by decide)) s
  · rw [if_neg hc]
    rw [if_neg (by tauto)]
    exact ⟨s, rfl, rfl, by simp⟩

mutual
theorem processFiles_succeeds {env : Env} (h : allSucceed env) (appName : String)
    {totalFiles : Nat} :
    ∀ (c : List (String × Value)) (path : String) (s : Walk), scalarMainGoFree c = true →
      (countFiles c ≠ 0 → totalFiles ≠ 0) →
      ∃ s1, processFiles env appName totalFiles c path s = (s1, .ok) ∧
        s1.filesProcessed = s.filesProcessed + countFiles c ∧
        percentages s1.world = percentages s.world ++
          (List.range' (s.filesProcessed + 1) (countFiles c)).map
            (fun n => n * 100 / totalFiles)
  | [], _, s, _, _ => ⟨s, by simp [processFiles], by simp [countFiles], by simp [countFiles]⟩
  | (key, value) :: rest, path, s, hf, ht => by
    simp only [scalarMainGoFree, Bool.and_eq_true] at hf
    simp only [countFiles] at ht ⊢
    obtain ⟨s0, e1, e2, e3⟩ := processEntry_succeeds h appName key value path s hf.1
      (fun hc => ht (by omega))
    obtain ⟨s1, f1, f2, f3⟩ := processFiles_succeeds h appName rest path s0 hf.2
      (fun hc => ht (by omega))
    refine ⟨s1, ?_, ?_, ?_⟩
    · simp only [processFiles, e1, f1]
    · rw [f2, e2]; omega
    · rw [f3, e3, e2, List.append_assoc, ← List.map_append,
        Nat.add_right_comm s.filesProcessed (countEntry key value) 1, List.range'_append_1,
        Nat.add_comm (countFiles rest)]
theorem processEntry_succeeds {env : Env} (h : allSucceed env) (appName : String)
    {totalFiles : Nat} (key : String) :
    ∀ (value : Value) (path : String) (s : Walk), entryMainGoFree key value = true →
      (countEntry key value ≠ 0 → totalFiles ≠ 0) →
      ∃ s1, processEntry env appName totalFiles key value path s = (s1, .ok) ∧
        s1.filesProcessed = s.filesProcessed + countEntry key value ∧
        percentages s1.world = percentages s.world ++
          (List.range' (s.filesProcessed + 1) (countEntry key value)).map
            (fun n => n * 100 / totalFiles)
  | .strings v, path, s, _, ht => by
    simp only [countEntry] at ht ⊢
    simp only [processEntry]
    exact processFileNames_succeeds h appName _ v s
      (fun hv => ht (by simpa [List.length_eq_zero] using hv))
  | .object v, path, s, hf, ht => by
    simp only [entryMainGoFree] at hf
    simp only [countEntry] at ht ⊢
    simp only [processEntry]
    by_cases hc : v.length = 0 ∧ (containsDot key = true ∨ key = "Dockerfile")
    · rw [if_pos hc] at ht ⊢
      rw [if_pos hc]
      simpa using generateAndSaveFileContent_succeeds h appName (path ++ "/" ++ key)
        (ht (by decide)) s
    · rw [if_neg hc] at ht ⊢
      rw [if_neg hc]
      exact processFiles_succeeds h appName v _ s hf ht
  | .array v, path, s, _, ht => by
    simp only [countEntry] at ht ⊢
    simp only [processEntry]
    by_cases hc : v.length = 0 ∧ (containsDot key = true ∨ key = "Dockerfile")
    · have hp : v.length = 0 ∧ (containsDot key = true ∨ key = "Dockerfile" ∨ key = "go.mod"
          ∨ key = "main.go" ∨ key = "docker-compose.yml") := ⟨hc.1, by tauto⟩
      have hk : v.length = 0 ∧ (containsDot key = true ∨ key = "Dockerfile" ∨ key = "go.mod"
          ∨ key = "package.json") := ⟨hc.1, by tauto⟩
      rw [if_pos hk] at ht ⊢
      rw [if_pos hp]
      simpa using generateAndSaveFileContent_succeeds h appName (path ++ "/" ++ key)
        (ht (by decide)) s
    · have hp : ¬(v.length = 0 ∧ (containsDot key = true ∨ key = "Dockerfile" ∨ key = "go.mod"
          ∨ key = "main.go" ∨ key = "docker-compose.yml")) := by
        rintro ⟨h0, h1 | h1 | h1 | h1 | h1⟩
        · exact hc ⟨h0, Or.inl h1⟩
        · exact hc ⟨h0, Or.inr h1⟩
        · exact hc ⟨h0, Or.inl (containsDot_of_named (by tauto))⟩
        · exact hc ⟨h0, Or.inl (containsDot_of_named (by tauto))⟩
        · exact hc ⟨h0, Or.inl (containsDot_of_named (by tauto))⟩
      have hk : ¬(v.length = 0 ∧ (containsDot key = true ∨ key = "Dockerfile" ∨ key = "go.mod"
          ∨ key = "package.json")) := by
        rintro ⟨h0, h1 | h1 | h1 | h1⟩
        · exact hc ⟨h0, Or.inl h1⟩
        · exact hc ⟨h0, Or.inr h1⟩
        · exact hc ⟨h0, Or.inl (containsDot_of_named (by tauto))⟩
        · exact hc ⟨h0, Or.inl (containsDot_of_named (by tauto))⟩
      rw [if_neg hk]
      rw [if_neg hp]
      exact ⟨s, rfl, rfl, by simp⟩
  | .null, path, s, hf, ht => scalarEntry_succeeds h appName key .null path s rfl hf ht
  | .bool b, path, s, hf, ht => scalarEntry_succeeds h appName key (.bool b) path s rfl hf ht
  | .number n, path, s, hf, ht => scalarEntry_succeeds h appName key (.number n) path s rfl hf ht
  | .string x, path, s, hf, ht => scalarEntry_succeeds h appName key (.string x) path s rfl hf ht
end

theorem percent_le_hundred {n total : Nat} (h : n ≤ total) : n * 100 / total ≤ 100 := by
  rcases Nat.eq_zero_or_pos total with h0 | h0
  · subst h0; simp
  · exact Nat.div_le_of_le_mul (by nlinarith)

theorem runPercentages_sorted (total : Nat) :
    List.Pairwise (· ≤ ·)
      (0 :: (List.range' 1 total).map (fun n => n * 100 / total) ++ [100]) := by
  rw [List.cons_append, List.pairwise_cons]
  refine ⟨fun _ _ => Nat.zero_le _, ?_⟩
  rw [List.pairwise_append]
  refine ⟨?_, List.pairwise_singleton _ _, ?_⟩
  · rw [List.pairwise_map]
    exact (List.pairwise_lt_range' 1 total).imp
      (fun hab => Nat.div_le_div_right (Nat.mul_le_mul_right 100 (Nat.le_of_lt hab)))
  · intro a ha b hb
    simp only [List.mem_singleton] at hb
    subst hb
    simp only [List.mem_map, List.mem_range'_1] at ha
    obtain ⟨n, hn, rfl⟩ := ha
    exact percent_le_hundred (by omega)

theorem runPercentages_le (total : Nat) :
    ∀ p ∈ 0 :: (List.range' 1 total).map (fun n => n * 100 / total) ++ [100], p ≤ 100 := by
  intro p hp
  simp only [List.cons_append, List.mem_cons, List.mem_append, List.mem_map, List.mem_range'_1,
    List.mem_singleton, List.not_mem_nil, or_false] at hp
  rcases hp with rfl | ⟨n, hn, rfl⟩ | rfl
  · omega
  · exact percent_le_hundred (by omega)
  · omega

/-- When every call succeeds and no entry is a scalar-valued `main.go`, the run of
`processStep2` is handled without error, the walk processes `countFiles` entries,
and the percentages it sends are 0, then `n * 100 / total` for `n` from 1 to the
total, then 100 with the message `File generation complete!`. -/
theorem processStep2_progress {env : Env} (h : allSucceed env) (conv : Conversation)
    (store : Store) (w : World) (step0 : Step) (rest : List Step)
    (ps : List (String × Value)) (hs : conv.Steps = step0 :: rest)
    (hu : env.unmarshal step0.Response = .ok ps)
    (hfree : scalarMainGoFree (generateFileList ps) = true) :
    (∃ text, (processStep2 env conv store w).reply = .ok text) ∧
    (∃ s1, processFiles env "chat-app-maker" (countFiles (generateFileList ps))
        (generateFileList ps) ""
        ⟨sendProgressUpdate (sendWebSocketMessage (sendWebSocketMessage w "project_structure"
          (.structure (generateFileList ps))) "status_update"
          (.text "Generating project files...")) 0 "Starting file generation...", 0⟩
        = (s1, .ok) ∧ s1.filesProcessed = countFiles (generateFileList ps)) ∧
    percentages (processStep2 env conv store w).world = percentages w ++
      (0 :: (List.range' 1 (countFiles (generateFileList ps))).map
        (fun n => n * 100 / countFiles (generateFileList ps)) ++ [100]) ∧
    (progressEvents (processStep2 env conv store w).world.sent).getLast? =
      some (100, "File generation complete!") := by
  obtain ⟨s1, f1, f2, f3⟩ := processFiles_succeeds h "chat-app-maker" (generateFileList ps) ""
    ⟨sendProgressUpdate (sendWebSocketMessage (sendWebSocketMessage w "project_structure"
      (.structure (generateFileList ps))) "status_update"
      (.text "Generating project files...")) 0 "Starting file generation...", 0⟩ hfree id
  simp only [Nat.zero_add] at f2 f3
  refine ⟨?_, ⟨s1, f1, f2⟩, ?_, ?_⟩
  · unfold processStep2
    simp only [hs, hu, f1]
    exact ⟨_, rfl⟩
  · unfold processStep2
    simp only [hs, hu, f1]
    simp only [percentages, sendWebSocketMessage, sendProgressUpdate, progressEvents_append,
      progressEvents, List.map_append, List.append_nil, List.map_cons, List.map_nil] at f3 ⊢
    rw [f3]
    simp
  · unfold processStep2
    simp only [hs, hu, f1]
    simp [sendWebSocketMessage, sendProgressUpdate, progressEvents_append, progressEvents]

theorem allSucceed_scriptedEnv (json : String) (decoded : List (String × Value)) :
    allSucceed (scriptedEnv json decoded) :=
  ⟨fun _ _ => ⟨json, rfl⟩, fun _ _ => rfl, fun _ _ _ => rfl⟩

/-- The structure `backend: [main.go, go.mod], frontend: (src: [App.js])` in a run
where every call succeeds: three entries are processed and the percentages sent
are 0, 33, 66, 100, 100. -/
theorem processStep2_progress_example :
    percentages (processStep2
        (scriptedEnv "ok"
          [("backend", .array [.string "main.go", .string "go.mod"]),
           ("frontend", .object [("src", .array [.string "App.js"])])])
        ⟨"c1", [⟨1, "build a todo app", "ok"⟩], false⟩ NewMemoryStorage emptyWorld).world
      = [0, 33, 66, 100, 100] :=
  (processStep2_progress (allSucceed_scriptedEnv "ok" _) ⟨"c1", [⟨1, "build a todo app", "ok"⟩], false⟩
    NewMemoryStorage emptyWorld ⟨1, "build a todo app", "ok"⟩ [] _ rfl rfl (by decide)).2.2.1

/-- The entry `Dockerfile: []` as decoded from JSON: `generateFileList` turns the
empty `[]interface{}` into an empty `[]string`, so the counting pass returns 0 and
the walk generates nothing; the `[]interface{}` cases of `countFiles` and
`processFiles` never see it. -/
theorem dockerfile_empty_array_not_counted :
    generateFileList [("Dockerfile", .array [])] = [("Dockerfile", .strings [])] ∧
    countFiles (generateFileList [("Dockerfile", .array [])]) = 0 ∧
    countFiles [("Dockerfile", .array [])] = 1 ∧
    (processFiles (scriptedEnv "FROM golang" []) "chat-app-maker" 0
        (generateFileList [("Dockerfile", .array [])]) "" ⟨emptyWorld, 0⟩).1.world.prompts = [] := by
  refine ⟨rfl, by decide, by decide, by decide⟩

/-! ## Structure walker: arrays of strings and nested mappings -/

theorem stringItems_length_of_all :
    ∀ xs : List Value, xs.all (fun x => match x with | .string _ => true | _ => false) = true →
      (stringItems xs).length = xs.length
  | [], _ => rfl
  | x :: rest, h => by
    simp only [List.all_cons, Bool.and_eq_true] at h
    cases x <;> simp_all [stringItems, stringItems_length_of_all rest]

theorem stringItems_length_eq_filter :
    ∀ xs : List Value, (stringItems xs).length =
      (xs.filter (fun x => match x with | .string _ => true | _ => false)).length
  | [] => rfl
  | x :: rest => by
    cases x <;> simp [stringItems, stringItems_length_eq_filter rest]

theorem generateFileList_length :
    ∀ s : List (String × Value), (generateFileList s).length = s.length
  | [] => by simp [generateFileList]
  | (k, v) :: rest => by simp [generateFileList, generateFileList_length rest]

mutual
theorem countFiles_generateFileList :
    ∀ s : List (String × Value), arraysAndMappings s = true →
      countFiles (generateFileList s) = stringTotal s
  | [], _ => by simp [generateFileList, countFiles, stringTotal]
  | (key, value) :: rest, h => by
    simp only [arraysAndMappings, Bool.and_eq_true] at h
    simp only [generateFileList, countFiles, stringTotal,
      countEntry_canonicalValue key value h.1, countFiles_generateFileList rest h.2]
theorem countEntry_canonicalValue (key : String) :
    ∀ value : Value, arrayOrMapping value = true →
      countEntry key (canonicalValue value) = stringTotalValue value
  | .array xs, _ => by
    simp only [canonicalValue, countEntry, stringTotalValue, stringItems_length_eq_filter]
  | .object v, h => by
    simp only [arrayOrMapping, Bool.and_eq_true, Bool.not_eq_true', List.isEmpty_eq_false] at h
    have hne : (generateFileList v).length ≠ 0 := by
      rw [generateFileList_length]
      intro h0
      exact h.1 (List.length_eq_zero.mp h0)
    simp only [canonicalValue, countEntry, stringTotalValue, hne, false_and, if_false]
    exact countFiles_generateFileList v h.2
  | .null, h => by simp [arrayOrMapping] at h
  | .bool _, h => by simp [arrayOrMapping] at h
  | .number _, h => by simp [arrayOrMapping] at h
  | .string _, h => by simp [arrayOrMapping] at h
  | .strings _, h => by simp [arrayOrMapping] at h
end

/-! ## Query endpoint: messages of the most recent Steps -/

theorem appendMessages_eq (messages : List Message) (steps : List Step) :
    appendMessages messages steps = messages ++
      steps.flatMap (fun step => [⟨"user", step.Input⟩, ⟨"assistant", step.Response⟩]) := by
  induction steps generalizing messages with
  | nil => simp [appendMessages]
  | cons step rest ih => simp [appendMessages, ih, List.flatMap_cons]

theorem flatMap_pair_length (steps : List Step) :
    (steps.flatMap (fun step =>
      ([⟨"user", step.Input⟩, ⟨"assistant", step.Response⟩] : List Message))).length
      = 2 * steps.length := by
  induction steps with
  | nil => rfl
  | cons step rest ih => simp [List.flatMap_cons, ih]; omega

theorem flatMap_pair_get (steps : List Step) (i : Nat) (hi : i < steps.length) :
    (steps.flatMap (fun step =>
      ([⟨"user", step.Input⟩, ⟨"assistant", step.Response⟩] : List Message)))[2 * i]? =
        some ⟨"user", (steps.get ⟨i, hi⟩).Input⟩ ∧
    (steps.flatMap (fun step =>
      ([⟨"user", step.Input⟩, ⟨"assistant", step.Response⟩] : List Message)))[2 * i + 1]? =
        some ⟨"assistant", (steps.get ⟨i, hi⟩).Response⟩ := by
  induction steps generalizing i with
  | nil => simp at hi
  | cons step rest ih =>
    cases i with
    | zero => simp [List.flatMap_cons]
    | succ j =>
      have hj : j < rest.length := by simpa using hi
      have h1 : 2 * (j + 1) = 2 * j + 1 + 1 := by omega
      have h2 : 2 * (j + 1) + 1 = 2 * j + 1 + 1 + 1 := by omega
      obtain ⟨e1, e2⟩ := ih j hj
      simp only [List.flatMap_cons, List.cons_append, List.nil_append, h1, h2,
        List.getElem?_cons_succ, List.get_eq_getElem, List.getElem_cons_succ]
      simp only [List.get_eq_getElem] at e1 e2
      exact ⟨e1, e2⟩

theorem reportedSteps_le (steps : List Step) (limit : Int) :
    reportedSteps steps limit ≤ steps.length := by
  unfold reportedSteps
  split_ifs with h
  · omega
  · exact Nat.le_refl _

theorem getMessagesFromSteps_eq (steps : List Step) (limit : Int) :
    getMessagesFromSteps steps limit =
      (steps.drop (steps.length - reportedSteps steps limit)).flatMap
        (fun step => [⟨"user", step.Input⟩, ⟨"assistant", step.Response⟩]) := by
  unfold getMessagesFromSteps reportedSteps
  dsimp only
  rw [appendMessages_eq, List.nil_append]
  split_ifs with h
  · have : ((steps.length : Int) - limit).toNat = steps.length - limit.toNat := by omega
    rw [this]
  · simp

/-! ## Store: read after write -/

theorem GetOrCreateConversation_other (m : Store) (id k : String) (hk : k ≠ id) :
    (GetOrCreateConversation m id).1 k = m k := by
  unfold GetOrCreateConversation
  cases m id with
  | some conv => rfl
  | none => simp [hk]

theorem GetOrCreateConversation_keeps (m : Store) (id k : String) (c : Conversation)
    (h : m k = some c) : (GetOrCreateConversation m id).1 k = some c := by
  by_cases hk : k = id
  · subst hk
    simp [GetOrCreateConversation, h]
  · rw [GetOrCreateConversation_other m id k hk, h]

theorem runOps_keeps (id : String) (c : Conversation) :
    ∀ (ops : List StoreOp) (m : Store), lastUpdate id ops = none → m id = some c →
      runOps m ops id = some c
  | [], _, _, hm => hm
  | .get _ :: rest, m, h, hm => runOps_keeps id c rest m (by simpa [lastUpdate] using h) hm
  | .getOrCreate k :: rest, m, h, hm =>
    runOps_keeps id c rest _ (by simpa [lastUpdate] using h)
      (GetOrCreateConversation_keeps m k id c hm)
  | .update conv :: rest, m, h, hm => by
    simp only [lastUpdate] at h
    cases hl : lastUpdate id rest with
    | some later => simp [hl] at h
    | none =>
      simp only [hl] at h
      have hne : ¬ conv.ID = id := by
        intro he
        simp [he] at h
      exact runOps_keeps id c rest _ hl (by
        simp only [UpdateConversation, applyOp]
        rw [if_neg (fun he => hne he.symm)]
        exact hm)

theorem runOps_lastUpdate (id : String) (c : Conversation) :
    ∀ (ops : List StoreOp) (m : Store), lastUpdate id ops = some c →
      runOps m ops id = some c
  | [], _, h => by simp [lastUpdate] at h
  | .get _ :: rest, m, h => runOps_lastUpdate id c rest m (by simpa [lastUpdate] using h)
  | .getOrCreate _ :: rest, m, h => runOps_lastUpdate id c rest _ (by simpa [lastUpdate] using h)
  | .update conv :: rest, m, h => by
    simp only [lastUpdate] at h
    cases hl : lastUpdate id rest with
    | some later =>
      simp only [hl, Option.some.injEq] at h
      subst h
      exact runOps_lastUpdate id later rest _ hl
    | none =>
      simp only [hl] at h
      by_cases he : conv.ID = id
      · simp only [he, if_true, Option.some.injEq] at h
        subst h
        exact runOps_keeps id conv rest _ hl (by simp [applyOp, UpdateConversation, he])
      · simp [he] at h

/-! ## File materializer -/

theorem saveFileToDisk_directory (env : Env) (appName filePath content : String) (w : World)
    (hdir : hasSuffixSlash filePath = true)
    (hmk : env.mkdirAll w (env.dir (env.join appName filePath)) = none) :
    (saveFileToDisk env appName filePath content w).2 = none ∧
    (saveFileToDisk env appName filePath content w).1.mkdirs =
      w.mkdirs ++ [env.dir (env.join appName filePath)] ∧
    (saveFileToDisk env appName filePath content w).1.writes = w.writes := by
  unfold saveFileToDisk
  simp [hmk, hdir]

theorem saveFileToDisk_file (env : Env) (appName filePath content : String) (w : World)
    (hfile : hasSuffixSlash filePath = false)
    (hmk : env.mkdirAll w (env.dir (env.join appName filePath)) = none)
    (hwr : env.writeFile
      { w with mkdirs := w.mkdirs ++ [env.dir (env.join appName filePath)] }
      (env.join appName filePath) content = none) :
    (saveFileToDisk env appName filePath content w).2 = none ∧
    (saveFileToDisk env appName filePath content w).1.mkdirs =
      w.mkdirs ++ [env.dir (env.join appName filePath)] ∧
    (saveFileToDisk env appName filePath content w).1.writes =
      w.writes ++ [(env.join appName filePath, content)] := by
  unfold saveFileToDisk
  simp [hmk, hfile, hwr]

/-- The file half of the materializer on a Unix system: `/backend/main.go` under
`chat-app-maker` creates the parent `chat-app-maker/backend` and writes the content
to `chat-app-maker/backend/main.go`. -/
theorem saveFileToDisk_file_example :
    (saveFileToDisk (unixEnv "ok" []) "chat-app-maker" "/backend/main.go" "package main"
        emptyWorld).2 = none ∧
    (saveFileToDisk (unixEnv "ok" []) "chat-app-maker" "/backend/main.go" "package main"
        emptyWorld).1.mkdirs = ["chat-app-maker/backend"] ∧
    (saveFileToDisk (unixEnv "ok" []) "chat-app-maker" "/backend/main.go" "package main"
        emptyWorld).1.writes = [("chat-app-maker/backend/main.go", "package main")] := by
  decide

/-! ## Orchestrator: where `processStep2` is entered -/

theorem firstStep_append (env : Env) (steps : List Step) (newStep : Step)
    (h : firstStepFromNormalMessage env steps) (hne : steps ≠ []) :
    firstStepFromNormalMessage env (steps ++ [newStep]) := by
  cases steps with
  | nil => exact absurd rfl hne
  | cons step0 tail => exact h

theorem firstStep_UpdateConversation (env : Env) (m : Store) (conv : Conversation)
    (hm : ∀ id c, m id = some c → firstStepFromNormalMessage env c.Steps)
    (hc : firstStepFromNormalMessage env conv.Steps) :
    ∀ id c, UpdateConversation m conv id = some c → firstStepFromNormalMessage env c.Steps := by
  intro id c h
  unfold UpdateConversation at h
  split_ifs at h
  · simp only [Option.some.injEq] at h
    subst h
    exact hc
  · exact hm id c h

theorem firstStep_openConversation (env : Env) (m : Store) (id : String)
    (hm : ∀ k c, m k = some c → firstStepFromNormalMessage env c.Steps) :
    firstStepFromNormalMessage env (openConversation m id).1.Steps ∧
    ∀ k c, (openConversation m id).2 k = some c → firstStepFromNormalMessage env c.Steps := by
  unfold openConversation
  cases h : m id with
  | some conv =>
    simp only [GetOrCreateConversation_found h, if_true]
    exact ⟨hm id conv h, hm⟩
  | none =>
    simp only [GetOrCreateConversation_missing h, Bool.false_eq_true, if_false]
    refine ⟨trivial, ?_⟩
    apply firstStep_UpdateConversation
    · intro k c hk
      split_ifs at hk
      · simp only [Option.some.injEq] at hk
        subst hk
        trivial
      · exact hm k c hk
    · trivial

theorem processStep2_cases (env : Env) (conv : Conversation) (store : Store) (w : World) :
    ((processStep2 env conv store w).conv = conv ∧
      (processStep2 env conv store w).store = store ∧
      ∀ r, (processStep2 env conv store w).reply ≠ .ok r) ∨
    (conv.Steps ≠ [] ∧
      (processStep2 env conv store w).conv =
        { conv with Steps := conv.Steps ++
          [⟨2, "Generate file contents", "File contents generated and sent to frontend"⟩] } ∧
      (processStep2 env conv store w).store =
        UpdateConversation store (processStep2 env conv store w).conv) := by
  unfold processStep2
  cases hs : conv.Steps with
  | nil => left; simp
  | cons step0 tail =>
    simp only []
    cases hu : env.unmarshal step0.Response with
    | error e => left; simp
    | ok ps =>
      simp only []
      split
      · left; simp
      · left; simp
      · right; simp

theorem dispatch_firstStep (env : Env) (chatReq : ChatRequest) (conv : Conversation)
    (store : Store) (w : World)
    (hc : firstStepFromNormalMessage env conv.Steps)
    (hm : ∀ k c, store k = some c → firstStepFromNormalMessage env c.Steps) :
    (∀ k c, (dispatch env chatReq conv.Steps.length conv store w).store k = some c →
      firstStepFromNormalMessage env c.Steps) ∧
    ((dispatch env chatReq conv.Steps.length conv store w).conv.Steps ≠ [] →
      firstStepFromNormalMessage env
        (dispatch env chatReq conv.Steps.length conv store w).conv.Steps) ∧
    (∀ r, (dispatch env chatReq conv.Steps.length conv store w).reply = .ok r →
      (dispatch env chatReq conv.Steps.length conv store w).conv.Steps = [] →
      conv.Steps = [] ∧
        ∃ w1, env.getResponse w1 (enhancePrompt (env.now w1) chatReq.Message 1) = .ok r) := by
  unfold dispatch
  by_cases hconf : chatReq.IsConfirmation = true
  · simp only [hconf, if_true]
    unfold handleConfirmation
    by_cases h1 : ((conv.Steps.length : Nat) : Int) = 1
    · rw [if_pos h1]
      have hne : conv.Steps ≠ [] := by
        intro h0
        rw [h0] at h1
        simp at h1
      by_cases hyes : chatReq.Message = "YES"
      · rw [if_pos hyes]
        rcases processStep2_cases env conv store w with ⟨e1, e2, e3⟩ | ⟨_, e1, e2⟩
        · rw [e1, e2]
          exact ⟨hm, fun _ => hc, fun r hr => absurd hr (e3 r)⟩
        · have hnew : firstStepFromNormalMessage env (processStep2 env conv store w).conv.Steps := by
            rw [e1]
            exact firstStep_append env conv.Steps _ hc hne
          refine ⟨?_, fun _ => hnew, ?_⟩
          · rw [e2]
            exact firstStep_UpdateConversation env store _ hm hnew
          · intro r _ h0
            rw [e1] at h0
            simp at h0
      · rw [if_neg hyes]
        exact ⟨hm, fun _ => hc, fun r _ h0 => absurd h0 hne⟩
    · rw [if_neg h1]
      have key : ∀ (r : Reply), (∀ x, r = .ok x → conv.Steps ≠ []) →
          (∀ k c, (Handling.mk conv store w r).store k = some c →
            firstStepFromNormalMessage env c.Steps) ∧
          ((Handling.mk conv store w r).conv.Steps ≠ [] →
            firstStepFromNormalMessage env (Handling.mk conv store w r).conv.Steps) ∧
          (∀ x, (Handling.mk conv store w r).reply = .ok x →
            (Handling.mk conv store w r).conv.Steps = [] →
            conv.Steps = [] ∧
              ∃ w1, env.getResponse w1 (enhancePrompt (env.now w1) chatReq.Message 1) = .ok x) :=
        fun r hr => ⟨hm, fun _ => hc, fun x hx h0 => absurd h0 (hr x hx)⟩
      have hlen : ∀ n : Int, ((conv.Steps.length : Nat) : Int) = n → n ≠ 0 → conv.Steps ≠ [] := by
        intro n hn hn0 h0
        rw [h0] at hn
        simp at hn
        exact hn0 hn.symm
      split_ifs with h2 hy h7 hy7
      · exact key _ (fun _ _ => hlen 2 h2 (by decide))
      · exact key _ (fun _ _ => hlen 2 h2 (by decide))
      · exact key _ (fun _ _ => by
          rcases h7 with h | h | h
          · exact hlen 7 h (by decide)
          · exact hlen 8 h (by decide)
          · exact hlen 13 h (by decide))
      · exact key _ (fun _ _ => by
          rcases h7 with h | h | h
          · exact hlen 7 h (by decide)
          · exact hlen 8 h (by decide)
          · exact hlen 13 h (by decide))
      · exact ⟨hm, fun _ => hc, fun _ hf => hf.elim⟩
  · simp only [hconf, if_false, Bool.false_eq_true]
    unfold processNormalMessage
    dsimp only
    cases hr : env.getResponse w (enhancePrompt (env.now w) chatReq.Message
        (((conv.Steps.length : Nat) : Int) + 1)) with
    | error e => exact ⟨hm, fun _ => hc, fun r h => by simp at h⟩
    | ok response =>
      refine ⟨hm, fun _ => hc, ?_⟩
      intro r h h0
      simp only [Reply.ok.injEq] at h
      subst h
      dsimp only at h0
      refine ⟨h0, w, ?_⟩
      rw [h0] at hr
      simpa using hr

theorem chatExchange_firstStep (env : Env) (store : Store) (w : World) (chatReq : ChatRequest)
    (hm : ∀ k c, store k = some c → firstStepFromNormalMessage env c.Steps) :
    ∀ k c, (chatExchange env store w chatReq).1 k = some c →
      firstStepFromNormalMessage env c.Steps := by
  obtain ⟨hc, hs⟩ := firstStep_openConversation env store chatReq.ConversationID hm
  obtain ⟨d1, d2, d3⟩ := dispatch_firstStep env chatReq
    (openConversation store chatReq.ConversationID).1
    (openConversation store chatReq.ConversationID).2 w hc hs
  unfold chatExchange conclude
  dsimp only
  cases hr : (dispatch env chatReq
      ((openConversation store chatReq.ConversationID).1.Steps.length : Int)
      (openConversation store chatReq.ConversationID).1
      (openConversation store chatReq.ConversationID).2 w).reply with
  | panic msg => exact d1
  | error response err => exact d1
  | ok r =>
    dsimp only
    apply firstStep_UpdateConversation env _ _ d1
    dsimp only
    by_cases hne : (dispatch env chatReq
        ((openConversation store chatReq.ConversationID).1.Steps.length : Int)
        (openConversation store chatReq.ConversationID).1
        (openConversation store chatReq.ConversationID).2 w).conv.Steps = []
    · obtain ⟨h0, w1, hw1⟩ := d3 r hr hne
      rw [hne, h0]
      exact ⟨by simp, w1, hw1⟩
    · exact firstStep_append env _ _ (d2 hne) hne

theorem exchanges_firstStep (env : Env) :
    ∀ (reqs : List ChatRequest) (store : Store) (w : World),
      (∀ k c, store k = some c → firstStepFromNormalMessage env c.Steps) →
      ∀ k c, (exchanges env store w reqs).1 k = some c →
        firstStepFromNormalMessage env c.Steps
  | [], _, _, hm => hm
  | chatReq :: rest, store, w, hm =>
    exchanges_firstStep env rest _ _ (chatExchange_firstStep env store w chatReq hm)

theorem length_one {steps : List Step} (h : ((steps.length : Nat) : Int) = 1) :
    ∃ step0, steps = [step0] := by
  match steps, h with
  | [step0], _ => exact ⟨step0, rfl⟩
  | [], h => simp at h
  | _ :: _ :: _, h => simp at h; omega

/-! ## Claims -/

/-- C1. A first message, the confirmation `YES`, and the confirmation that
`processStep2` then asks for: the first exchange leaves one Step; the second is
handled without error and leaves three, the Step appended by `processStep2` and the
Step appended by the loop, both numbered 2; the third is rejected as a confirmation
for step 3. -/
theorem yes_confirmation_appends_two_steps :
    stepsOf (NewChatHandler (scriptedEnv "\x7b\x7d" []) NewMemoryStorage emptyWorld
        [⟨"c1", "build a todo app", false⟩]).1 "c1" = [⟨1, "build a todo app", "\x7b\x7d"⟩] ∧
    stepsOf (NewChatHandler (scriptedEnv "\x7b\x7d" []) NewMemoryStorage emptyWorld
        [⟨"c1", "build a todo app", false⟩, ⟨"c1", "YES", true⟩]).1 "c1" =
      [⟨1, "build a todo app", "\x7b\x7d"⟩,
       ⟨2, "Generate file contents", "File contents generated and sent to frontend"⟩,
       ⟨2, "YES", "Great! I\x27ve generated the content for all files based on the JSON structure. The files have been sent to the frontend for display."⟩] ∧
    (NewChatHandler (scriptedEnv "\x7b\x7d" []) NewMemoryStorage emptyWorld
        [⟨"c1", "build a todo app", false⟩, ⟨"c1", "YES", true⟩, ⟨"c1", "YES", true⟩]).2.2 =
      [.ok, .ok, .error "unexpected confirmation for step 3"] := by
  decide

/-- C2. A confirmation at a step outside 1, 2, 7, 8, 13 returns the empty
response with the error `unexpected confirmation for step n`, and the exchange
then ends in an error with the Steps of every id unchanged; at the steps 2, 7, 8, 13
with any answer, and at step 1 with an answer other than `YES`, no error is
returned. -/
theorem confirmation_dispatch_domain (env : Env) (answer : String) (currentStep : Int)
    (conv : Conversation) (store : Store) (w : World) :
    (currentStep ∉ [1, 2, 7, 8, 13] →
        (handleConfirmation env answer currentStep conv store w).reply =
          .error "" ("unexpected confirmation for step " ++ toString currentStep)) ∧
    (currentStep ∈ [2, 7, 8, 13] ∨ (currentStep = 1 ∧ answer ≠ "YES") →
        ∃ r, (handleConfirmation env answer currentStep conv store w).reply = .ok r) ∧
    (∀ id : String, ((stepsOf store id).length : Int) ∉ [1, 2, 7, 8, 13] →
        (∃ err, (chatExchange env store w ⟨id, answer, true⟩).2.2 = .error err) ∧
        ∀ k, stepsOf (chatExchange env store w ⟨id, answer, true⟩).1 k = stepsOf store k) := by
  refine ⟨?_, ?_, ?_⟩
  · intro h
    simp only [List.mem_cons, List.mem_singleton, List.not_mem_nil, or_false, not_or] at h
    rw [handleConfirmation_undefined env answer currentStep conv store w h.1 h.2.1 h.2.2.1
      h.2.2.2.1 h.2.2.2.2]
  · intro h
    simp only [List.mem_cons, List.mem_singleton, List.not_mem_nil, or_false] at h
    unfold handleConfirmation
    rcases h with (h | h | h | h) | ⟨h, ha⟩ <;> subst h <;> simp <;> split_ifs <;> simp_all
  · intro id h
    simp only [List.mem_cons, List.mem_singleton, List.not_mem_nil, or_false, not_or] at h
    have hst : ∃ err, (chatExchange env store w ⟨id, answer, true⟩).2.2 = .error err := by
      unfold chatExchange
      dsimp only
      rw [steps_openConversation]
      unfold dispatch
      simp only [if_true]
      rw [handleConfirmation_undefined env answer _ _ _ w h.1 h.2.1 h.2.2.1 h.2.2.2.1 h.2.2.2.2]
      exact ⟨_, rfl⟩
    obtain ⟨err, herr⟩ := hst
    exact ⟨⟨err, herr⟩, chatExchange_steps_of_error env store w _ err herr⟩

/-- Witness of C2: a confirmation at step 3, a declined one at step 1, and a
confirmation for an id the store has never seen. -/
theorem confirmation_dispatch_domain_witness :
    (handleConfirmation offlineEnv "YES" 3 ⟨"c1", [], false⟩ NewMemoryStorage emptyWorld).reply =
        .error "" "unexpected confirmation for step 3" ∧
    (∃ r, (handleConfirmation offlineEnv "NO" 1 ⟨"c1", [], false⟩ NewMemoryStorage
        emptyWorld).reply = .ok r) ∧
    ((∃ err, (chatExchange offlineEnv NewMemoryStorage emptyWorld ⟨"c1", "YES", true⟩).2.2
        = .error err) ∧
      ∀ k, stepsOf (chatExchange offlineEnv NewMemoryStorage emptyWorld ⟨"c1", "YES", true⟩).1 k
        = stepsOf NewMemoryStorage k) :=
  ⟨(confirmation_dispatch_domain offlineEnv "YES" 3 ⟨"c1", [], false⟩ NewMemoryStorage
      emptyWorld).1 (by decide),
   (confirmation_dispatch_domain offlineEnv "NO" 1 ⟨"c1", [], false⟩ NewMemoryStorage
      emptyWorld).2.1 (Or.inr ⟨rfl, by decide⟩),
   (confirmation_dispatch_domain offlineEnv "YES" 3 ⟨"c1", [], false⟩ NewMemoryStorage
      emptyWorld).2.2 "c1" (by decide)⟩

/-- C3. The structure whose only entry is `main.go` with a null value: the
counting pass returns 0, the walk still reaches `generateAndSaveFileContent` for
`/main.go`, and after the model call and the write the quotient by zero panics. -/
theorem main_go_scalar_divides_by_zero :
    countFiles (generateFileList [("main.go", .null)]) = 0 ∧
    (NewChatHandler (scriptedEnv "\x7b\"main.go\": null\x7d" [("main.go", .null)])
        NewMemoryStorage emptyWorld
        [⟨"c1", "a go program", false⟩, ⟨"c1", "YES", true⟩]).2.2
      = [.ok, .panic "runtime error: integer divide by zero"] ∧
    (NewChatHandler (scriptedEnv "\x7b\"main.go\": null\x7d" [("main.go", .null)])
        NewMemoryStorage emptyWorld
        [⟨"c1", "a go program", false⟩, ⟨"c1", "YES", true⟩]).2.1.prompts
      = [enhancePrompt "2024-01-01T00:00:00Z" "a go program" 1, filePrompt "/main.go"] ∧
    (NewChatHandler (scriptedEnv "\x7b\"main.go\": null\x7d" [("main.go", .null)])
        NewMemoryStorage emptyWorld
        [⟨"c1", "a go program", false⟩, ⟨"c1", "YES", true⟩]).2.1.writes
      = [("chat-app-maker/main.go", "\x7b\"main.go\": null\x7d")] :=
  ⟨by decide, by decide, rfl, by decide⟩

/-- C4. The structure with the scalar entries `Dockerfile` and `main.go`, in
either order of traversal: the total is 1, two files are generated, and the
percentages sent are 0, 100, 200, 100. -/
theorem progress_exceeds_hundred_then_drops :
    progressEvents (NewChatHandler
        (scriptedEnv "\x7b\"Dockerfile\": null, \"main.go\": null\x7d"
          [("Dockerfile", .null), ("main.go", .null)])
        NewMemoryStorage emptyWorld
        [⟨"c1", "a go service", false⟩, ⟨"c1", "YES", true⟩]).2.1.sent
      = [(0, "Starting file generation..."), (100, "Generating: /Dockerfile"),
         (200, "Generating: /main.go"), (100, "File generation complete!")] ∧
    progressEvents (NewChatHandler
        (scriptedEnv "\x7b\"Dockerfile\": null, \"main.go\": null\x7d"
          [("main.go", .null), ("Dockerfile", .null)])
        NewMemoryStorage emptyWorld
        [⟨"c1", "a go service", false⟩, ⟨"c1", "YES", true⟩]).2.1.sent
      = [(0, "Starting file generation..."), (100, "Generating: /main.go"),
         (200, "Generating: /Dockerfile"), (100, "File generation complete!")] := by
  decide

/-- C5. The structure with the scalar entries `go.mod` and `main.go`: the
counting pass returns 1 and the walk, every call succeeding, processes 2. -/
theorem walk_processes_more_than_counted :
    countFiles (generateFileList [("go.mod", .null), ("main.go", .string "package main")]) = 1 ∧
    (processFiles (scriptedEnv "module chat-app-maker" []) "chat-app-maker"
        (countFiles (generateFileList [("go.mod", .null), ("main.go", .string "package main")]))
        (generateFileList [("go.mod", .null), ("main.go", .string "package main")]) ""
        ⟨emptyWorld, 0⟩).2 = .ok ∧
    (processFiles (scriptedEnv "module chat-app-maker" []) "chat-app-maker"
        (countFiles (generateFileList [("go.mod", .null), ("main.go", .string "package main")]))
        (generateFileList [("go.mod", .null), ("main.go", .string "package main")]) ""
        ⟨emptyWorld, 0⟩).1.filesProcessed = 2 := by
  decide

/-- C6, as the claim states it: the entry `README.md: null` has a key with a dot
and a scalar value; the counting pass returns 0 and the walk generates nothing. -/
theorem readme_scalar_not_a_leaf :
    containsDot "README.md" = true ∧
    countFiles (generateFileList [("README.md", .null)]) = 0 ∧
    (processFiles (scriptedEnv "# readme" []) "chat-app-maker"
        (countFiles (generateFileList [("README.md", .null)]))
        (generateFileList [("README.md", .null)]) "" ⟨emptyWorld, 0⟩).1.world.prompts = [] ∧
    (processFiles (scriptedEnv "# readme" []) "chat-app-maker"
        (countFiles (generateFileList [("README.md", .null)]))
        (generateFileList [("README.md", .null)]) "" ⟨emptyWorld, 0⟩).1.filesProcessed = 0 := by
  decide

/-- C6, amended. An entry whose key contains a dot or equals `Dockerfile` and whose
value is the empty mapping counts as one file and the walk calls the model once,
for the path `/k`. An entry with a scalar value counts as one file, and is generated
by one model call for `/k`, when its key is one of `Dockerfile`, `go.mod`,
`package.json`, `App.js`, `index.js`, `docker-compose.yml`, `.gitignore`; with any
other key except `main.go` it counts as none and the walk leaves the state as it was. -/
theorem leaf_entry_classification (env : Env) (k : String) (v : Value) (s : Walk) :
    ((containsDot k = true ∨ k = "Dockerfile") → v = .object [] →
        countFiles (generateFileList [(k, v)]) = 1 ∧
        (processFiles env "chat-app-maker" (countFiles (generateFileList [(k, v)]))
          (generateFileList [(k, v)]) "" s).1.world.prompts
            = s.world.prompts ++ [filePrompt ("/" ++ k)]) ∧
    (isScalar v = true →
        k ∈ ["Dockerfile", "go.mod", "package.json", "App.js", "index.js",
          "docker-compose.yml", ".gitignore"] →
        countFiles (generateFileList [(k, v)]) = 1 ∧
        (processFiles env "chat-app-maker" (countFiles (generateFileList [(k, v)]))
          (generateFileList [(k, v)]) "" s).1.world.prompts
            = s.world.prompts ++ [filePrompt ("/" ++ k)]) ∧
    (isScalar v = true →
        k ∉ ["Dockerfile", "go.mod", "package.json", "App.js", "index.js",
          "docker-compose.yml", ".gitignore", "main.go"] →
        countFiles (generateFileList [(k, v)]) = 0 ∧
        processFiles env "chat-app-maker" (countFiles (generateFileList [(k, v)]))
          (generateFileList [(k, v)]) "" s = (s, .ok)) := by
  refine ⟨?_, ?_, ?_⟩
  · intro hk hv
    subst hv
    have hc : countFiles (generateFileList [(k, .object [])]) = 1 := by
      simp [generateFileList, canonicalValue, countFiles, countEntry, hk]
    refine ⟨hc, ?_⟩
    rw [hc]
    simp only [generateFileList, canonicalValue, processFiles_single, processEntry, hk,
      List.length_nil, true_and, if_true, empty_path_key]
    rw [generateAndSaveFileContent_prompts]
  · intro hv hk
    simp only [List.mem_cons, List.mem_singleton, List.not_mem_nil, or_false] at hk
    have hc : countFiles (generateFileList [(k, v)]) = 1 := by
      simp only [generateFileList, canonicalValue_scalar hv, countFiles, countEntry_scalar k hv]
      rw [if_pos (by tauto)]
    refine ⟨hc, ?_⟩
    rw [hc]
    simp only [generateFileList, canonicalValue_scalar hv, processFiles_single,
      processEntry_scalar env _ _ k "" hv, empty_path_key]
    rw [if_pos (by tauto), generateAndSaveFileContent_prompts]
  · intro hv hk
    simp only [List.mem_cons, List.mem_singleton, List.not_mem_nil, or_false, not_or] at hk
    have hc : countFiles (generateFileList [(k, v)]) = 0 := by
      simp only [generateFileList, canonicalValue_scalar hv, countFiles, countEntry_scalar k hv]
      rw [if_neg (by tauto)]
    refine ⟨hc, ?_⟩
    simp only [generateFileList, canonicalValue_scalar hv, processFiles_single,
      processEntry_scalar env _ _ k "" hv]
    rw [if_neg (by tauto)]

/-- Witness of C6, amended: `go.mod` as empty mapping, `package.json` as a string,
`LICENSE` as null. -/
theorem leaf_entry_classification_witness :
    (countFiles (generateFileList [("go.mod", .object [])]) = 1 ∧
      (processFiles offlineEnv "chat-app-maker"
          (countFiles (generateFileList [("go.mod", .object [])]))
          (generateFileList [("go.mod", .object [])]) "" ⟨emptyWorld, 0⟩).1.world.prompts
        = emptyWorld.prompts ++ [filePrompt ("/" ++ "go.mod")]) ∧
    (countFiles (generateFileList [("package.json", .string "npm")]) = 1 ∧
      (processFiles offlineEnv "chat-app-maker"
          (countFiles (generateFileList [("package.json", .string "npm")]))
          (generateFileList [("package.json", .string "npm")]) "" ⟨emptyWorld, 0⟩).1.world.prompts
        = emptyWorld.prompts ++ [filePrompt ("/" ++ "package.json")]) ∧
    (countFiles (generateFileList [("LICENSE", .null)]) = 0 ∧
      processFiles offlineEnv "chat-app-maker"
          (countFiles (generateFileList [("LICENSE", .null)]))
          (generateFileList [("LICENSE", .null)]) "" ⟨emptyWorld, 0⟩ = (⟨emptyWorld, 0⟩, .ok)) :=
  ⟨(leaf_entry_classification offlineEnv "go.mod" (.object []) ⟨emptyWorld, 0⟩).1
      (Or.inl (by decide)) rfl,
   (leaf_entry_classification offlineEnv "package.json" (.string "npm") ⟨emptyWorld, 0⟩).2.1
      rfl (by decide),
   (leaf_entry_classification offlineEnv "LICENSE" .null ⟨emptyWorld, 0⟩).2.2 rfl (by decide)⟩

/-- C7. A conversation whose single Step holds the response `{}`, then the normal
message `add tests`: the second prompt sent to the model is the step 2 template
around the user message, which is not the template around `Steps[0].Response`. -/
theorem step_two_prompt_embeds_user_message :
    stepsOf (NewChatHandler (scriptedEnv "\x7b\x7d" []) NewMemoryStorage emptyWorld
        [⟨"c1", "build a todo app", false⟩]).1 "c1" = [⟨1, "build a todo app", "\x7b\x7d"⟩] ∧
    (NewChatHandler (scriptedEnv "\x7b\x7d" []) NewMemoryStorage emptyWorld
        [⟨"c1", "build a todo app", false⟩, ⟨"c1", "add tests", false⟩]).2.1.prompts =
      [enhancePrompt "2024-01-01T00:00:00Z" "build a todo app" 1,
       step2Before ++ "add tests" ++ step2After] ∧
    step2Before ++ "add tests" ++ step2After ≠ step2Before ++ "\x7b\x7d" ++ step2After := by
  refine ⟨by decide, rfl, ?_⟩
  intro h
  have h1 := string_append_left_cancel
    (by simpa only [String.append_assoc] using h :
      step2Before ++ ("add tests" ++ step2After) = step2Before ++ ("\x7b\x7d" ++ step2After))
  exact absurd (string_append_right_cancel h1) (by decide)

/-- C8, as the claim states it: at step 3 the same message at two clock readings
one second apart yields two different texts. -/
theorem enhancePrompt_depends_on_clock :
    enhancePrompt "2024-01-01T00:00:00Z" "hello" 3 ≠
      enhancePrompt "2024-01-01T00:00:01Z" "hello" 3 := by
  intro h
  simp only [enhancePrompt, show ((3 : Int) = 1) = False by decide,
    show ((3 : Int) = 2) = False by decide, if_false] at h
  have h1 := string_append_right_cancel (string_append_right_cancel h)
  exact absurd (string_append_left_cancel h1) (by decide)

/-- C8, amended. For the step numbers 1 and 2 the text does not depend on the
clock: it is a function of the message and the step number. For every other step
number two calls with the same message and step yield the same text exactly when
the clock reading `time.Now().Format(time.RFC3339)` is the same in both. -/
theorem enhancePrompt_determinism (t1 t2 message : String) (step : Int) :
    (step = 1 ∨ step = 2 → enhancePrompt t1 message step = enhancePrompt t2 message step) ∧
    (step ≠ 1 → step ≠ 2 →
      (enhancePrompt t1 message step = enhancePrompt t2 message step ↔ t1 = t2)) := by
  constructor
  · rintro (h | h) <;> subst h <;> rfl
  · intro h1 h2
    simp only [enhancePrompt, h1, h2, if_false]
    constructor
    · intro h
      exact string_append_left_cancel
        (string_append_right_cancel (string_append_right_cancel h))
    · intro h
      rw [h]

/-- Witness of C8, amended: steps 1 and 2 at two clock readings, step 3 at one. -/
theorem enhancePrompt_determinism_witness :
    enhancePrompt "2024-01-01T00:00:00Z" "hello" 1 = enhancePrompt "2024-01-01T00:00:01Z" "hello" 1 ∧
    enhancePrompt "2024-01-01T00:00:00Z" "hello" 2 = enhancePrompt "2024-01-01T00:00:01Z" "hello" 2 ∧
    (enhancePrompt "2024-01-01T00:00:00Z" "hello" 3 = enhancePrompt "2024-01-01T00:00:01Z" "hello" 3
      ↔ "2024-01-01T00:00:00Z" = "2024-01-01T00:00:01Z") :=
  ⟨(enhancePrompt_determinism "2024-01-01T00:00:00Z" "2024-01-01T00:00:01Z" "hello" 1).1
      (Or.inl rfl),
   (enhancePrompt_determinism "2024-01-01T00:00:00Z" "2024-01-01T00:00:01Z" "hello" 2).1
      (Or.inr rfl),
   (enhancePrompt_determinism "2024-01-01T00:00:00Z" "2024-01-01T00:00:01Z" "hello" 3).2
      (by decide) (by decide)⟩

/-- C9. At the steps 1, 2, 7, 8, 13 an answer other than the exact string `YES`
makes no model call (the world, the store and the conversation are left as they
were) and returns without error the canned text of the step; at step 1 the text is
`I understand. Let's revise the JSON structure. What would you like to change?`. -/
theorem declined_confirmation_is_canned (env : Env) (answer : String) (currentStep : Int)
    (conv : Conversation) (store : Store) (w : World)
    (hstep : currentStep ∈ [1, 2, 7, 8, 13]) (hans : answer ≠ "YES") :
    (handleConfirmation env answer currentStep conv store w).world = w ∧
    (handleConfirmation env answer currentStep conv store w).world.prompts = w.prompts ∧
    (handleConfirmation env answer currentStep conv store w).store = store ∧
    (handleConfirmation env answer currentStep conv store w).conv = conv ∧
    (handleConfirmation env answer currentStep conv store w).reply =
      .ok (if currentStep = 1 then
          "I understand. Let\x27s revise the JSON structure. What would you like to change?"
        else if currentStep = 2 then
          "I see. What part of the generated file contents would you like to modify?"
        else "No problem. Let\x27s revisit step " ++ toString currentStep
          ++ ". What needs adjustment?") ∧
    (currentStep = 1 → (handleConfirmation env answer currentStep conv store w).reply =
      .ok "I understand. Let\x27s revise the JSON structure. What would you like to change?") := by
  simp only [List.mem_cons, List.mem_singleton, List.not_mem_nil, or_false] at hstep
  rw [handleConfirmation_no env answer currentStep conv store w hans]
  refine ⟨rfl, rfl, rfl, rfl, ?_, ?_⟩
  · rcases hstep with h | h | h | h | h <;> subst h <;> simp
  · intro h
    subst h
    simp

/-- Witness of C9: the answers `NO` at step 1 and `yes` at step 7. -/
theorem declined_confirmation_is_canned_witness :
    (handleConfirmation offlineEnv "NO" 1 ⟨"c1", [], false⟩ NewMemoryStorage emptyWorld).reply =
      .ok "I understand. Let\x27s revise the JSON structure. What would you like to change?" ∧
    (handleConfirmation offlineEnv "yes" 7 ⟨"c1", [], false⟩ NewMemoryStorage
      emptyWorld).world.prompts = emptyWorld.prompts :=
  ⟨(declined_confirmation_is_canned offlineEnv "NO" 1 ⟨"c1", [], false⟩ NewMemoryStorage
      emptyWorld (by decide) (by decide)).2.2.2.2.2 rfl,
   (declined_confirmation_is_canned offlineEnv "yes" 7 ⟨"c1", [], false⟩ NewMemoryStorage
      emptyWorld (by decide) (by decide)).2.1⟩

/-- C10. Whenever one exchange ends in an error (the iteration reaches `continue`),
the Steps the store holds, for the id of the request and for every other id, are
the Steps it held before the exchange; an id without an entry counts as no Steps. -/
theorem error_leaves_steps_unchanged (env : Env) (store : Store) (w : World)
    (chatReq : ChatRequest) (err : String)
    (h : (chatExchange env store w chatReq).2.2 = .error err) (k : String) :
    stepsOf (chatExchange env store w chatReq).1 k = stepsOf store k :=
  chatExchange_steps_of_error env store w chatReq err h k

/-- Witness of C10: the model API refuses the call for a first message. -/
theorem error_leaves_steps_unchanged_witness :
    (chatExchange offlineEnv NewMemoryStorage emptyWorld ⟨"c1", "build a todo app", false⟩).2.2
        = .error "error getting response from Claude: connection refused" ∧
      stepsOf (chatExchange offlineEnv NewMemoryStorage emptyWorld
        ⟨"c1", "build a todo app", false⟩).1 "c1" = stepsOf NewMemoryStorage "c1" :=
  ⟨by decide, error_leaves_steps_unchanged offlineEnv NewMemoryStorage emptyWorld
    ⟨"c1", "build a todo app", false⟩ "error getting response from Claude: connection refused"
    (by decide) "c1"⟩

/-- C11. For every structure built only from arrays of strings and non-empty
nested mappings, `countFiles (generateFileList s)` is the number of strings in all
of its arrays; for `backend: [main.go, go.mod], frontend: (src: [App.js])` the
canonical structure lists exactly the three files and the count is 3. -/
theorem count_is_number_of_strings :
    (∀ s : List (String × Value), arraysAndMappings s = true →
      countFiles (generateFileList s) = stringTotal s) ∧
    generateFileList
        [("backend", .array [.string "main.go", .string "go.mod"]),
         ("frontend", .object [("src", .array [.string "App.js"])])] =
      [("backend", .strings ["main.go", "go.mod"]),
       ("frontend", .object [("src", .strings ["App.js"])])] ∧
    countFiles (generateFileList
        [("backend", .array [.string "main.go", .string "go.mod"]),
         ("frontend", .object [("src", .array [.string "App.js"])])]) = 3 :=
  ⟨countFiles_generateFileList, rfl, by decide⟩

/-- Witness of C11: a structure with two arrays, one of them nested, holding four
strings. -/
theorem count_is_number_of_strings_witness :
    arraysAndMappings
        [("api", .object [("routes", .array [.string "users.go", .string "auth.go"])]),
         ("web", .array [.string "index.html", .string "assets"])] = true ∧
    countFiles (generateFileList
        [("api", .object [("routes", .array [.string "users.go", .string "auth.go"])]),
         ("web", .array [.string "index.html", .string "assets"])]) =
      stringTotal
        [("api", .object [("routes", .array [.string "users.go", .string "auth.go"])]),
         ("web", .array [.string "index.html", .string "assets"])] ∧
    stringTotal
        [("api", .object [("routes", .array [.string "users.go", .string "auth.go"])]),
         ("web", .array [.string "index.html", .string "assets"])] = 4 :=
  ⟨by decide, count_is_number_of_strings.1 _ (by decide), by decide⟩

/-- C12. With `k = limit` when `0 < limit < len(steps)` and `k = len(steps)`
otherwise, `getMessagesFromSteps` returns exactly `2k` messages; for `i < k` the
messages `2i` and `2i+1` are the user message with the Input and the assistant
message with the Response of Step `len(steps) - k + i`, so the last `k` Steps appear
in their original order; a limit that is zero, negative or at least `len(steps)`
gives `k = len(steps)`. -/
theorem recent_steps_as_message_pairs (steps : List Step) (limit : Int) :
    (getMessagesFromSteps steps limit).length = 2 * reportedSteps steps limit ∧
    (∀ i, i < reportedSteps steps limit →
      ∃ step, steps[steps.length - reportedSteps steps limit + i]? = some step ∧
        (getMessagesFromSteps steps limit)[2 * i]? = some ⟨"user", step.Input⟩ ∧
        (getMessagesFromSteps steps limit)[2 * i + 1]? = some ⟨"assistant", step.Response⟩) ∧
    (limit ≤ 0 ∨ (steps.length : Int) ≤ limit → reportedSteps steps limit = steps.length) := by
  have hle := reportedSteps_le steps limit
  refine ⟨?_, ?_, ?_⟩
  · rw [getMessagesFromSteps_eq, flatMap_pair_length, List.length_drop]
    omega
  · intro i hi
    have hlen : i < (steps.drop (steps.length - reportedSteps steps limit)).length := by
      rw [List.length_drop]; omega
    obtain ⟨e1, e2⟩ := flatMap_pair_get _ i hlen
    refine ⟨(steps.drop (steps.length - reportedSteps steps limit)).get ⟨i, hlen⟩, ?_, ?_, ?_⟩
    · simp only [List.get_eq_getElem, List.getElem_drop]
      rw [List.getElem?_eq_getElem]
    · rw [getMessagesFromSteps_eq]; exact e1
    · rw [getMessagesFromSteps_eq]; exact e2
  · intro h
    unfold reportedSteps
    rw [if_neg (by omega)]

/-- Witness of C12: three Steps with the limits 2, 0 and 5. -/
theorem recent_steps_as_message_pairs_witness :
    getMessagesFromSteps [⟨1, "a", "A"⟩, ⟨2, "b", "B"⟩, ⟨3, "c", "C"⟩] 2 =
      [⟨"user", "b"⟩, ⟨"assistant", "B"⟩, ⟨"user", "c"⟩, ⟨"assistant", "C"⟩] ∧
    (∃ step, [(⟨1, "a", "A"⟩ : Step), ⟨2, "b", "B"⟩, ⟨3, "c", "C"⟩][3 -
        reportedSteps [⟨1, "a", "A"⟩, ⟨2, "b", "B"⟩, ⟨3, "c", "C"⟩] 2 + 1]? = some step ∧
      (getMessagesFromSteps [⟨1, "a", "A"⟩, ⟨2, "b", "B"⟩, ⟨3, "c", "C"⟩] 2)[2 * 1]? =
        some ⟨"user", step.Input⟩ ∧
      (getMessagesFromSteps [⟨1, "a", "A"⟩, ⟨2, "b", "B"⟩, ⟨3, "c", "C"⟩] 2)[2 * 1 + 1]? =
        some ⟨"assistant", step.Response⟩) ∧
    reportedSteps [⟨1, "a", "A"⟩, ⟨2, "b", "B"⟩, ⟨3, "c", "C"⟩] 0 = 3 ∧
    reportedSteps [⟨1, "a", "A"⟩, ⟨2, "b", "B"⟩, ⟨3, "c", "C"⟩] 5 = 3 :=
  ⟨by decide,
   (recent_steps_as_message_pairs [⟨1, "a", "A"⟩, ⟨2, "b", "B"⟩, ⟨3, "c", "C"⟩] 2).2.1 1
     (by decide),
   (recent_steps_as_message_pairs [⟨1, "a", "A"⟩, ⟨2, "b", "B"⟩, ⟨3, "c", "C"⟩] 0).2.2
     (Or.inl (by decide)),
   (recent_steps_as_message_pairs [⟨1, "a", "A"⟩, ⟨2, "b", "B"⟩, ⟨3, "c", "C"⟩] 5).2.2
     (Or.inr (by decide))⟩

/-- C13. After every sequence of store calls, `GetConversation(id)` returns the
conversation most recently passed to `UpdateConversation` with that id;
`UpdateConversation` and `GetOrCreateConversation` leave the entry of every other
id as it was; `GetOrCreateConversation(id)` returns `existed = false` exactly when
the id had no entry, and afterwards the id has one. -/
theorem store_read_after_write (m : Store) :
    (∀ (ops : List StoreOp) (id : String) (c : Conversation),
      lastUpdate id ops = some c → GetConversation (runOps m ops) id = some c) ∧
    (∀ (conv : Conversation) (k : String), k ≠ conv.ID → UpdateConversation m conv k = m k) ∧
    (∀ id k : String, k ≠ id → (GetOrCreateConversation m id).1 k = m k) ∧
    (∀ id : String, ((GetOrCreateConversation m id).2.2 = false ↔ m id = none) ∧
      ((GetOrCreateConversation m id).1 id).isSome = true ∧
      (GetOrCreateConversation m id).1 id = some (GetOrCreateConversation m id).2.1) := by
  refine ⟨fun ops id c h => runOps_lastUpdate id c ops m h, ?_, ?_, ?_⟩
  · intro conv k hk
    simp [UpdateConversation, hk]
  · exact fun id k hk => GetOrCreateConversation_other m id k hk
  · intro id
    unfold GetOrCreateConversation
    cases h : m id with
    | some conv => simp [h]
    | none => simp

/-- Witness of C13: updates of the ids `a` and `b` interleaved with a read and a
get-or-create; each id reads back its own latest write. -/
theorem store_read_after_write_witness :
    GetConversation (runOps NewMemoryStorage
        [.getOrCreate "a", .update ⟨"a", [⟨1, "x", "X"⟩], false⟩, .getOrCreate "b",
         .update ⟨"b", [⟨1, "y", "Y"⟩], false⟩, .get "a",
         .update ⟨"a", [⟨1, "x", "X"⟩, ⟨2, "z", "Z"⟩], false⟩, .getOrCreate "b"]) "a"
      = some ⟨"a", [⟨1, "x", "X"⟩, ⟨2, "z", "Z"⟩], false⟩ ∧
    GetConversation (runOps NewMemoryStorage
        [.getOrCreate "a", .update ⟨"a", [⟨1, "x", "X"⟩], false⟩, .getOrCreate "b",
         .update ⟨"b", [⟨1, "y", "Y"⟩], false⟩, .get "a",
         .update ⟨"a", [⟨1, "x", "X"⟩, ⟨2, "z", "Z"⟩], false⟩, .getOrCreate "b"]) "b"
      = some ⟨"b", [⟨1, "y", "Y"⟩], false⟩ ∧
    UpdateConversation NewMemoryStorage ⟨"a", [], false⟩ "b" = NewMemoryStorage "b" ∧
    (GetOrCreateConversation NewMemoryStorage "a").1 "b" = NewMemoryStorage "b" :=
  ⟨(store_read_after_write NewMemoryStorage).1 _ "a" _ (by decide),
   (store_read_after_write NewMemoryStorage).1 _ "b" _ (by decide),
   (store_read_after_write NewMemoryStorage).2.1 ⟨"a", [], false⟩ "b" (by decide),
   (store_read_after_write NewMemoryStorage).2.2.1 "a" "b" (by decide)⟩

/-- C14. The directory marker `/backend/handlers/` under `chat-app-maker`, as the
walk builds it for the entry `handlers` of `backend: [handlers]`: the call succeeds
and writes no file, `Join(project, path)` is `chat-app-maker/backend/handlers`, and
the only directory passed to `os.MkdirAll` is its parent `chat-app-maker/backend`,
so the directory named by the path does not exist afterwards. -/
theorem directory_marker_creates_only_parent :
    hasSuffixSlash "/backend/handlers/" = true ∧
    filepathJoin "chat-app-maker" "/backend/handlers/" = "chat-app-maker/backend/handlers" ∧
    (saveFileToDisk (unixEnv "ok" []) "chat-app-maker" "/backend/handlers/" ""
        emptyWorld).2 = none ∧
    (saveFileToDisk (unixEnv "ok" []) "chat-app-maker" "/backend/handlers/" ""
        emptyWorld).1.writes = [] ∧
    (saveFileToDisk (unixEnv "ok" []) "chat-app-maker" "/backend/handlers/" ""
        emptyWorld).1.mkdirs = ["chat-app-maker/backend"] ∧
    createdBy (saveFileToDisk (unixEnv "ok" []) "chat-app-maker" "/backend/handlers/" ""
        emptyWorld).1.mkdirs "chat-app-maker/backend" = true ∧
    createdBy (saveFileToDisk (unixEnv "ok" []) "chat-app-maker" "/backend/handlers/" ""
        emptyWorld).1.mkdirs "chat-app-maker/backend/handlers" = false ∧
    (processFiles (unixEnv "ok" []) "chat-app-maker" 1
        [("backend", .strings ["handlers"])] "" ⟨emptyWorld, 0⟩).2 = .ok ∧
    (processFiles (unixEnv "ok" []) "chat-app-maker" 1
        [("backend", .strings ["handlers"])] "" ⟨emptyWorld, 0⟩).1.world.mkdirs =
      ["chat-app-maker/backend"] := by
  decide

/-- C15. Six normal messages on a fresh id, then a confirmation: the sixth
`chat_response` carries `stepNumber = 6` and `requiresConfirmation = true`, and the
confirmation handled next, at `currentStep = 6`, is rejected as a state error. For
`n ≥ 1` the flag after the exchange that leaves `n` Steps is
`confirmationSteps (n + 1)`; it is true while a confirmation at `n` has no
transition exactly for `n = 6` and `n = 12`. -/
theorem flag_set_but_confirmation_rejected :
    chatResponses (NewChatHandler (scriptedEnv "ok" []) NewMemoryStorage emptyWorld
        [⟨"c1", "m1", false⟩, ⟨"c1", "m2", false⟩, ⟨"c1", "m3", false⟩, ⟨"c1", "m4", false⟩,
         ⟨"c1", "m5", false⟩, ⟨"c1", "m6", false⟩, ⟨"c1", "YES", true⟩]).2.1.sent =
      [(1, true), (2, false), (3, false), (4, false), (5, false), (6, true)] ∧
    (NewChatHandler (scriptedEnv "ok" []) NewMemoryStorage emptyWorld
        [⟨"c1", "m1", false⟩, ⟨"c1", "m2", false⟩, ⟨"c1", "m3", false⟩, ⟨"c1", "m4", false⟩,
         ⟨"c1", "m5", false⟩, ⟨"c1", "m6", false⟩, ⟨"c1", "YES", true⟩]).2.2 =
      [.ok, .ok, .ok, .ok, .ok, .ok, .error "unexpected confirmation for step 6"] ∧
    (stepsOf (NewChatHandler (scriptedEnv "ok" []) NewMemoryStorage emptyWorld
        [⟨"c1", "m1", false⟩, ⟨"c1", "m2", false⟩, ⟨"c1", "m3", false⟩, ⟨"c1", "m4", false⟩,
         ⟨"c1", "m5", false⟩, ⟨"c1", "m6", false⟩, ⟨"c1", "YES", true⟩]).1 "c1").length = 6 ∧
    (∀ n : Int, 1 ≤ n →
      ((confirmationSteps (n + 1) = true ∧ n ∉ [1, 2, 7, 8, 13]) ↔ (n = 6 ∨ n = 12))) := by
  refine ⟨by decide, by decide, by decide, ?_⟩
  intro n hn
  simp only [confirmationSteps, Bool.or_eq_true, decide_eq_true_eq, List.mem_cons,
    List.mem_singleton, List.not_mem_nil, or_false]
  omega

/-- C16. In every state reached from the empty store by any sequence of
exchanges, for the conversation `conv` an exchange opens: a normal message is
handled by `processNormalMessage`; a confirmation for a conversation that does not
have exactly one Step, or whose answer is not `YES`, returns the same reply in every
environment and leaves conversation, store and world as they were, so `processStep2`
is not entered; a `YES` confirmation for a conversation with exactly one Step is
handled by `processStep2`, and there `conv.Steps` is `[step0]`, `step0` has number 1
and `step0.Response` is a reply of the model to the step 1 prompt built from
`step0.Input`, the message of a normal exchange. -/
theorem processStep2_entered_with_one_normal_step (env : Env) (w0 w : World)
    (reqs : List ChatRequest) (chatReq : ChatRequest) (store store1 : Store)
    (conv : Conversation)
    (hreach : store = (exchanges env NewMemoryStorage w0 reqs).1)
    (hopen : openConversation store chatReq.ConversationID = (conv, store1)) :
    (chatReq.IsConfirmation = false →
      dispatch env chatReq (conv.Steps.length : Nat) conv store1 w =
        processNormalMessage env chatReq.Message (conv.Steps.length : Nat) conv store1 w) ∧
    (¬ (((conv.Steps.length : Nat) : Int) = 1 ∧ chatReq.Message = "YES") →
      ∃ reply, ∀ env1 : Env,
        handleConfirmation env1 chatReq.Message (conv.Steps.length : Nat) conv store1 w =
          ⟨conv, store1, w, reply⟩) ∧
    (chatReq.IsConfirmation = true → ((conv.Steps.length : Nat) : Int) = 1 →
      chatReq.Message = "YES" →
      dispatch env chatReq (conv.Steps.length : Nat) conv store1 w =
        processStep2 env conv store1 w ∧
      ∃ step0, conv.Steps = [step0] ∧ step0.Number = 1 ∧
        ∃ w1, env.getResponse w1 (enhancePrompt (env.now w1) step0.Input 1)
          = .ok step0.Response) := by
  have hinv := exchanges_firstStep env reqs NewMemoryStorage w0
    (fun k c h => by simp [NewMemoryStorage] at h)
  rw [← hreach] at hinv
  obtain ⟨hc, -⟩ := firstStep_openConversation env store chatReq.ConversationID hinv
  rw [hopen] at hc
  dsimp only at hc
  refine ⟨?_, ?_, ?_⟩
  · intro hconf
    unfold dispatch
    simp [hconf]
  · intro hnot
    unfold handleConfirmation
    by_cases h1 : ((conv.Steps.length : Nat) : Int) = 1
    · have hyes : ¬ chatReq.Message = "YES" := fun hy => hnot ⟨h1, hy⟩
      simp only [h1, hyes, if_true, if_false]
      exact ⟨_, fun _ => rfl⟩
    · simp only [h1, if_false]
      split_ifs <;> exact ⟨_, fun _ => rfl⟩
  · intro hconf h1 hyes
    constructor
    · unfold dispatch handleConfirmation
      simp only [hconf, h1, hyes, if_true]
    · obtain ⟨step0, hs⟩ := length_one h1
      rw [hs] at hc ⊢
      exact ⟨step0, rfl, hc.1, hc.2⟩

/-- Witness of C16: after a first normal message the confirmation `YES` enters
`processStep2` with the single Step of that message. -/
theorem processStep2_entered_with_one_normal_step_witness :
    (openConversation (exchanges (scriptedEnv "\x7b\x7d" []) NewMemoryStorage emptyWorld
        [⟨"c1", "build a todo app", false⟩]).1 "c1").1.Steps
      = [⟨1, "build a todo app", "\x7b\x7d"⟩] ∧
    ∃ step0,
      (openConversation (exchanges (scriptedEnv "\x7b\x7d" []) NewMemoryStorage emptyWorld
        [⟨"c1", "build a todo app", false⟩]).1 "c1").1.Steps = [step0] ∧
      step0.Number = 1 ∧
      ∃ w1, (scriptedEnv "\x7b\x7d" []).getResponse w1
          (enhancePrompt ((scriptedEnv "\x7b\x7d" []).now w1) step0.Input 1)
        = .ok step0.Response :=
  ⟨by decide,
   ((processStep2_entered_with_one_normal_step (scriptedEnv "\x7b\x7d" []) emptyWorld
      emptyWorld [⟨"c1", "build a todo app", false⟩] ⟨"c1", "YES", true⟩ _ _ _ rfl rfl).2.2
      rfl (by decide) rfl).2⟩

end Handlers
